import Mathlib

/-!
Verification of the Enginality tick engine
(`zonengine4d/zon4d/ENGINALITY/runtime_loop.py`).

The Python runtime is shallowly embedded as pure Lean functions.  Mutable
objects become explicit state passing: the collaborators (Anchor Store,
ZON4D kernel, performer hook, scheduling sink, wall clock, domain-view
generator) are modelled as an `Env W` record of functions threading an
abstract world `W`, each returning `Except Exc α × W`, so that arbitrary
collaborator behaviours — including ones that raise — are expressible.
Python exceptions are modelled by `Exc`; `run_tick` catches only
`RuntimeError`, so the embedding distinguishes `Exc.runtimeError` from
`Exc.importError` (caught separately in step 10) and `Exc.otherError`
(any other `Exception` subclass).  Python floats (`temporal_index`,
`delta_time`, timestamps) are modelled as rationals; `round(x, 6)` is
round-half-to-even at six decimals.  Opaque `Any` values (`payload`,
`metadata`, state values, performance tasks) are modelled as integers:
the engine never inspects them, only the (arbitrary) kernel functions do.
-/

set_option maxRecDepth 40000

namespace Enginality

/-- Python exception classes relevant to `run_tick`:
`RuntimeError` (the only class its `except` clause catches),
`ImportError` (caught separately inside step 10), and any other
`Exception` subclass. -/
inductive Exc where
  | runtimeError (msg : String)
  | importError (msg : String)
  | otherError (msg : String)
deriving DecidableEq, Repr

/-- `Dict[str, Any]` world state (`zon4d_state`); values are opaque to the
engine, modelled as `Int`. -/
abbrev State := List (String × Int)

/-- `Dict[str, Any]` of domain views. -/
abbrev Views := List (String × Int)

/-- Opaque `PerformanceTask`. -/
abbrev Task := Int

/-- Python dict single-key assignment `m[k] = v` on an association list:
replaces the value of an existing key, otherwise appends. -/
def dictSet (m : Views) (k : String) (v : Int) : Views :=
  if m.any (fun p => p.1 = k) then
    m.map (fun p => if p.1 = k then (k, v) else p)
  else m ++ [(k, v)]

/-- Python `base.update(post)`. -/
def dictUpdate (base post : Views) : Views :=
  post.foldl (fun acc kv => dictSet acc kv.1 kv.2) base

/-- `Delta` structure per RUNTIME_LOOP_v0.1 Implementation Requirements §1. -/
structure Delta where
  id : String
  source_id : String
  entity_ref : String
  temporal_index : ℚ
  temporal_scope : ℚ × ℚ
  parent_ids : List String
  payload : Int
  metadata : List (String × Int)
deriving DecidableEq, Repr

/-- Canonical or candidate world state at a given Tick. -/
structure Snapshot where
  id : String
  tick : Int
  zon4d_state : State
  hash32 : Option String := none
  anchor_type : String := "soft"
deriving DecidableEq, Repr

/-- One entry of `TickContext.alerts` as built by `_alert`. -/
structure Alert where
  level : String
  step : Int
  message : String
  tick : Int
  ts : ℚ
deriving DecidableEq, Repr

/-- Execution context for a single Engine Tick. -/
structure TickContext where
  tick_id : Int
  wall_clock_ts : ℚ
  snapshot_in : Snapshot
  snapshot_out : Option Snapshot := none
  deltas_in : List Delta := []
  deltas_ordered : List Delta := []
  deltas_accepted : List Delta := []
  deltas_rejected : List Delta := []
  inverse_deltas : List Delta := []
  alerts : List Alert := []
  fenced : Bool := false
  breached : Bool := false
  breach_step : Option Int := none
  timeline_hash_ok : Bool := true
  delta_time : ℚ := 0
  domain_views : Views := []
  performance_tasks : List Task := []
deriving DecidableEq, Repr

/-- The mutable fields of `EnginalityRuntime` that the tick pipeline reads
or writes (`ap_engine` and the AP budgets are constructed but never used
by the current pipeline, matching the source's bypassed Phase-2 stages). -/
structure Runtime where
  max_deltas_per_tick : Nat
  tick_counter : Int
  current_snapshot : Snapshot
  last_wall_clock_ts : Option ℚ
deriving DecidableEq, Repr

/-- The collaborators injected into `EnginalityRuntime`, as stateful
functions over an abstract world `W`.  A call either returns a value or
raises an exception, and may evolve the world either way.
`performerStep` is `none` when no `PerformerEngine` is attached;
`generateDomainViews` models `domain_views.generate_domain_views_from_state`
together with its (possibly failing) import, which step 10 guards with
catch-all handlers. -/
structure Env (W : Type) where
  timeNow : W → ℚ × W
  timelineHashOk : W → Except Exc Bool × W
  loadLastImmutableAnchor : W → Except Exc Snapshot × W
  computeInverseDelta : W → State → Delta → Except Exc (Option Delta) × W
  applyDeltaInPlace : W → State → Delta → Except Exc State × W
  validateState : W → State → Except Exc Bool × W
  generateDomainViews : W → State → Int → Except Exc Views × W
  performerStep : Option (W → Int → ℚ → Views → Except Exc (List Task) × W)
  schedulePerformance : W → Int → List Task → Except Exc Unit × W

variable {W : Type}

/-- Decidable equality on `Except` results (used to evaluate concrete
runs of the embedded pipeline). -/
instance {ε α : Type} [DecidableEq ε] [DecidableEq α] : DecidableEq (Except ε α) :=
  fun x y =>
  match x, y with
  | Except.ok a, Except.ok b =>
    if h : a = b then isTrue (by rw [h])
    else isFalse (fun hx => Except.noConfusion hx fun h2 => h h2)
  | Except.error a, Except.error b =>
    if h : a = b then isTrue (by rw [h])
    else isFalse (fun hx => Except.noConfusion hx fun h2 => h h2)
  | Except.ok _, Except.error _ => isFalse fun hx => Except.noConfusion hx
  | Except.error _, Except.ok _ => isFalse fun hx => Except.noConfusion hx

/-- Python `x or default` on an optional integer: `None` and `0` are both
falsy (as in `step = ctx.breach_step or -1`). -/
def pyOr (o : Option Int) (default : Int) : Int :=
  match o with
  | none => default
  | some v => if v = 0 then default else v

/-- Floor of a rational, computed directly on the reduced fraction. -/
def ratFloor (q : ℚ) : ℤ := q.num.fdiv q.den

/-- Round half to even (Python `round` tie behaviour). -/
def roundHalfEven (q : ℚ) : ℤ :=
  let f : ℤ := ratFloor q
  let r : ℚ := q - f
  if r < 1/2 then f
  else if 1/2 < r then f + 1
  else if f % 2 = 0 then f else f + 1

/-- Python `round(x, 6)`. -/
def round6 (q : ℚ) : ℚ := (roundHalfEven (q * 1000000) : ℚ) / 1000000

/-- `EnginalityRuntime._alert`: append one diagnostics record. -/
def _alert (ctx : TickContext) (level : String) (step : Int) (message : String) :
    TickContext :=
  { ctx with alerts := ctx.alerts ++ [⟨level, step, message, ctx.tick_id, ctx.wall_clock_ts⟩] }

/-- `EnginalityRuntime._breach`: flag a breach at a step with a CRITICAL alert. -/
def _breach (ctx : TickContext) (step : Int) (message : String) : TickContext :=
  _alert { ctx with breached := true, breach_step := some step } "CRITICAL" step message

/-- `EnginalityRuntime._mark_breach`: flag a breach caught at top level
(`step = ctx.breach_step or -1`). -/
def _mark_breach (ctx : TickContext) (reason : String) : TickContext :=
  _alert { ctx with breached := true } "CRITICAL" (pyOr ctx.breach_step (-1))
    ("Runtime breach: " ++ reason)

/-- `EnginalityRuntime._alloc_snapshot_id`. -/
def _alloc_snapshot_id (tick_id : Int) : String := "snap_" ++ toString tick_id

/-- `EnginalityRuntime._validate_delta_structure`. -/
def _validate_delta_structure (d : Delta) : Bool :=
  if d.id = "" ∨ d.source_id = "" ∨ d.entity_ref = "" then false
  else if d.temporal_scope.1 > d.temporal_scope.2 then false
  else if 64 < d.parent_ids.length then false
  else true

/-- `EnginalityRuntime._normalized_delta`: clamp `temporal_index` to six
decimal places and defensively copy mutable fields (copies are identities
under value semantics). -/
def _normalized_delta (d : Delta) : Delta :=
  { id := d.id
    source_id := d.source_id
    entity_ref := d.entity_ref
    temporal_index := round6 d.temporal_index
    temporal_scope := d.temporal_scope
    parent_ids := d.parent_ids
    payload := d.payload
    metadata := d.metadata }

/-- The `delta_time` computation of step 1 (factored out of
`_step1_init`): an explicit override is clamped at zero; otherwise the
wall-clock difference since the previous tick, clamped at zero, with 0.0
on the very first tick. -/
def dtSpec (explicit : Option ℚ) (last : Option ℚ) (now : ℚ) : ℚ :=
  match explicit with
  | some d => max d 0
  | none =>
    match last with
    | none => 0
    | some prev => max (now - prev) 0

/-- `EnginalityRuntime._step1_init`.  The only fallible call is
`anchor_store.timeline_hash_ok()` at the end; an exception there
propagates out of `run_tick` because step 1 runs outside its `try`. -/
def _step1_init (env : Env W) (w : W) (rt : Runtime) (pending_deltas : List Delta)
    (domain_views : Option Views) (explicit_delta_time : Option ℚ) :
    Except (Exc × W × Runtime) (W × Runtime × TickContext) :=
  let rt1 : Runtime := { rt with tick_counter := rt.tick_counter + 1 }
  let tn := env.timeNow w
  let wall_clock_ts := tn.1
  let w1 := tn.2
  let snapshot_in := rt1.current_snapshot
  let dt : ℚ := dtSpec explicit_delta_time rt1.last_wall_clock_ts wall_clock_ts
  let rt2 : Runtime := { rt1 with last_wall_clock_ts := some wall_clock_ts }
  let ctx : TickContext :=
    { tick_id := rt2.tick_counter
      wall_clock_ts := wall_clock_ts
      snapshot_in := snapshot_in
      delta_time := dt
      domain_views := domain_views.getD []
      deltas_in := pending_deltas }
  match env.timelineHashOk w1 with
  | (Except.error e, w2) => Except.error (e, w2, rt2)
  | (Except.ok b, w2) =>
    let ctx := { ctx with timeline_hash_ok := b }
    if b then Except.ok (w2, rt2, ctx)
    else Except.ok (w2, rt2, _breach ctx 1 "Timeline hash mismatch at Tick init")

/-- The structural-validation loop inside `_step2_ingest`: returns the
surviving normalized deltas and the context extended with rejections and
their WARNING alerts. -/
def ingestLoop : TickContext → List Delta → List Delta × TickContext
  | ctx, [] => ([], ctx)
  | ctx, d :: ds =>
    if _validate_delta_structure d then
      let r := ingestLoop ctx ds
      (_normalized_delta d :: r.1, r.2)
    else
      let ctx1 := _alert { ctx with deltas_rejected := ctx.deltas_rejected ++ [d] }
        "WARNING" 2 ("Rejected malformed Delta " ++ d.id)
      ingestLoop ctx1 ds

/-- `EnginalityRuntime._step2_ingest`: temporal fencing then structural
validation; never raises. -/
def _step2_ingest (rt : Runtime) (ctx : TickContext) : TickContext :=
  if ctx.breached then ctx
  else
    let ctx1 :=
      if ctx.deltas_in.length > rt.max_deltas_per_tick then
        let overflow := ctx.deltas_in.length - rt.max_deltas_per_tick
        let c := { ctx with deltas_in := ctx.deltas_in.take rt.max_deltas_per_tick }
        let c := _alert c "WARNING" 2
          ("Temporal fence: " ++ toString overflow ++ " Deltas pushed to next Tick")
        { c with fenced := true }
      else ctx
    let r := ingestLoop ctx1 ctx1.deltas_in
    { r.2 with deltas_in := r.1 }

/-- The type of the sort key of `_step3_temporal_order` with Python's
tuple comparison: the lexicographic order on
`(temporal_index, causal_depth, source_id, id)`. -/
abbrev SortKey := Lex (ℚ × Lex (Nat × Lex (String × String)))

/-- The sort key of `_step3_temporal_order`:
`(temporal_index, causal_depth, source_id, id)` where
`causal_depth = len(parent_ids)`, compared lexicographically. -/
def sort_key (d : Delta) : SortKey :=
  toLex (d.temporal_index, toLex (d.parent_ids.length, toLex (d.source_id, d.id)))

/-- Stable insertion used to model Python's stable `sorted`: a new element
is placed after every element whose key is `≤` its own. -/
def insertStable (x : Delta) : List Delta → List Delta
  | [] => [x]
  | y :: ys =>
    if sort_key x < sort_key y then x :: y :: ys
    else y :: insertStable x ys

/-- Python `sorted(l, key=sort_key)` (a stable sort). -/
def pySorted (l : List Delta) : List Delta :=
  l.foldl (fun acc d => insertStable d acc) []

/-- `EnginalityRuntime._step3_temporal_order`. -/
def _step3_temporal_order (ctx : TickContext) : TickContext :=
  if ctx.breached then ctx
  else { ctx with deltas_ordered := pySorted ctx.deltas_in }

/-- The mutation loop of `_step6_apply_deltas`: for each accepted delta in
order, compute its inverse against the current working state (breaching at
step 6 and raising `RuntimeError` when the kernel returns none), then apply
it.  Kernel exceptions propagate.  Returns the final working state and the
recorded inverses. -/
def step6Loop (env : Env W) : W → State → List Delta → TickContext →
    Except (Exc × W × TickContext) (W × State × List Delta × TickContext)
  | w, st, [], ctx => Except.ok (w, st, [], ctx)
  | w, st, d :: ds, ctx =>
    match env.computeInverseDelta w st d with
    | (Except.error e, w1) => Except.error (e, w1, ctx)
    | (Except.ok none, w1) =>
      let ctx1 := _breach ctx 6 ("Cannot compute inverse for Delta " ++ d.id)
      Except.error (Exc.runtimeError "Inverse Delta computation failed", w1, ctx1)
    | (Except.ok (some inv), w1) =>
      match env.applyDeltaInPlace w1 st d with
      | (Except.error e, w2) => Except.error (e, w2, ctx)
      | (Except.ok st1, w2) =>
        match step6Loop env w2 st1 ds ctx with
        | Except.error r => Except.error r
        | Except.ok (w3, stF, invs, ctx1) => Except.ok (w3, stF, inv :: invs, ctx1)

/-- `EnginalityRuntime._step6_apply_deltas`.  (The source's
`ctx.snapshot_in is None` guard is unreachable: `snapshot_in` is typed
`Snapshot` and always set from `current_snapshot`, so it is not modelled
as optional.)  `ctx.inverse_deltas` and `ctx.snapshot_out` are assigned
only after all deltas applied and the resulting state validated. -/
def _step6_apply_deltas (env : Env W) (w : W) (ctx : TickContext) :
    Except (Exc × W × TickContext) (W × TickContext) :=
  if ctx.breached then Except.ok (w, ctx)
  else
    match step6Loop env w ctx.snapshot_in.zon4d_state ctx.deltas_accepted ctx with
    | Except.error r => Except.error r
    | Except.ok (w1, new_state, inverse_deltas, ctx1) =>
      match env.validateState w1 new_state with
      | (Except.error e, w2) => Except.error (e, w2, ctx1)
      | (Except.ok false, w2) =>
        let ctx2 := _breach ctx1 6 "ZON4D state validation failed"
        Except.error (Exc.runtimeError "ZON4D validation failed after mutations", w2, ctx2)
      | (Except.ok true, w2) =>
        let snapshot_out : Snapshot :=
          { id := _alloc_snapshot_id ctx1.tick_id
            tick := ctx1.tick_id
            zon4d_state := new_state }
        Except.ok (w2, { ctx1 with snapshot_out := some snapshot_out,
                                   inverse_deltas := inverse_deltas })

/-- `EnginalityRuntime._step10_generate_domain_views`: hydrate views from
the new state; `ImportError` gives a WARNING, any other exception an ERROR
alert — never raises. -/
def _step10_generate_domain_views (env : Env W) (w : W) (ctx : TickContext) :
    W × TickContext :=
  if ctx.breached then (w, ctx)
  else
    match ctx.snapshot_out with
    | none => (w, ctx)
    | some so =>
      match env.generateDomainViews w so.zon4d_state ctx.tick_id with
      | (Except.ok post, w1) =>
        if post.isEmpty then (w1, ctx)
        else (w1, { ctx with domain_views := dictUpdate ctx.domain_views post })
      | (Except.error (Exc.importError _), w1) =>
        (w1, _alert ctx "WARNING" 10
          "domain_views module not available; skipping view generation")
      | (Except.error (Exc.runtimeError m), w1) =>
        (w1, _alert ctx "ERROR" 10 ("Domain view generation failed: " ++ m))
      | (Except.error (Exc.otherError m), w1) =>
        (w1, _alert ctx "ERROR" 10 ("Domain view generation failed: " ++ m))

/-- `EnginalityRuntime._step11_schedule_performance`: invoke the performer
hook (if attached) and forward its tasks to the scheduling sink; exceptions
from either propagate. -/
def _step11_schedule_performance (env : Env W) (w : W) (ctx : TickContext) :
    Except (Exc × W × TickContext) (W × TickContext) :=
  if ctx.breached then Except.ok (w, ctx)
  else
    match env.performerStep with
    | none =>
      Except.ok (w, _alert ctx "INFO" 11
        "Tick complete (PerformerEngine not attached; performance no-op)")
    | some step =>
      match step w ctx.tick_id ctx.delta_time ctx.domain_views with
      | (Except.error e, w1) => Except.error (e, w1, ctx)
      | (Except.ok tasks, w1) =>
        let ctx1 := { ctx with performance_tasks := tasks }
        match env.schedulePerformance w1 ctx1.tick_id ctx1.performance_tasks with
        | (Except.error e, w2) => Except.error (e, w2, ctx1)
        | (Except.ok _, w2) =>
          Except.ok (w2, _alert ctx1 "INFO" 11
            ("Tick complete (Performer scheduled " ++
              toString ctx1.performance_tasks.length ++ " tasks)"))

/-- The fast-path decision `use_fast` of `_rollback`: timeline-hash
continuity intact, breach step within 2–7, and at least one recorded
inverse delta. -/
def rollbackUseFast (th : Bool) (step : Int) (invs : List Delta) : Bool :=
  th && (decide (2 ≤ step) && decide (step ≤ 7)) && decide (0 < invs.length)

/-- The fast-path loop of `_rollback`: apply inverse deltas (already
reversed by the caller) to the working copy of the current state. -/
def rollbackApplyLoop (env : Env W) : W → State → List Delta → Except (Exc × W) (W × State)
  | w, st, [] => Except.ok (w, st)
  | w, st, d :: ds =>
    match env.applyDeltaInPlace w st d with
    | (Except.error e, w1) => Except.error (e, w1)
    | (Except.ok st1, w1) => rollbackApplyLoop env w1 st1 ds

/-- The slow path of `_rollback`: restore the last immutable anchor. -/
def slowPath (env : Env W) (w : W) (rt : Runtime) (ctx : TickContext) (step : Int) :
    Except (Exc × W × Runtime × TickContext) (W × Runtime × TickContext) :=
  match env.loadLastImmutableAnchor w with
  | (Except.error e, w1) => Except.error (e, w1, rt, ctx)
  | (Except.ok anchor, w1) =>
    Except.ok (w1, { rt with current_snapshot := anchor },
      _alert ctx "INFO" step "Slow-path rollback: restored last immutable anchor")

/-- `EnginalityRuntime._rollback`: the fast/slow rollback decision rule.
Exceptions from the Anchor Store or (on the fast path) the kernel
propagate, as they would out of the Python `except`/`else` blocks. -/
def _rollback (env : Env W) (w : W) (rt : Runtime) (ctx : TickContext) :
    Except (Exc × W × Runtime × TickContext) (W × Runtime × TickContext) :=
  let step := pyOr ctx.breach_step (-1)
  match env.timelineHashOk w with
  | (Except.error e, w1) => Except.error (e, w1, rt, ctx)
  | (Except.ok th, w1) =>
    let ctx := { ctx with timeline_hash_ok := th }
    if rollbackUseFast th step ctx.inverse_deltas then
      match rollbackApplyLoop env w1 rt.current_snapshot.zon4d_state
          ctx.inverse_deltas.reverse with
      | Except.error (e, w2) => Except.error (e, w2, rt, ctx)
      | Except.ok (w2, state) =>
        match env.validateState w2 state with
        | (Except.error e, w3) => Except.error (e, w3, rt, ctx)
        | (Except.ok false, w3) =>
          let ctx1 := _alert ctx "CRITICAL" step
            "Fast-path rollback validation failed; falling back to anchor restore"
          slowPath env w3 rt ctx1 step
        | (Except.ok true, w3) =>
          let rt1 := { rt with current_snapshot :=
            { id := rt.current_snapshot.id
              tick := rt.current_snapshot.tick
              zon4d_state := state
              hash32 := rt.current_snapshot.hash32
              anchor_type := rt.current_snapshot.anchor_type } }
          Except.ok (w3, rt1, _alert ctx "INFO" step
            "Fast-path rollback applied via inverse Deltas")
    else slowPath env w1 rt ctx step

/-- The body of `run_tick`'s `try` block: steps 2, 3, the Phase-2 bypass
(`deltas_accepted = list(deltas_ordered)`), steps 6, 10, 11, and the
commit of the output snapshot when no breach occurred. -/
def tickBody (env : Env W) (w : W) (rt : Runtime) (ctx : TickContext) :
    Except (Exc × W × TickContext) (W × Runtime × TickContext) :=
  let ctx := _step2_ingest rt ctx
  let ctx := _step3_temporal_order ctx
  let ctx := { ctx with deltas_accepted := ctx.deltas_ordered }
  match _step6_apply_deltas env w ctx with
  | Except.error r => Except.error r
  | Except.ok (w1, ctx1) =>
    let r10 := _step10_generate_domain_views env w1 ctx1
    match _step11_schedule_performance env r10.1 r10.2 with
    | Except.error r => Except.error r
    | Except.ok (w2, ctx2) =>
      if ctx2.breached = false then
        match ctx2.snapshot_out with
        | some so => Except.ok (w2, { rt with current_snapshot := so }, ctx2)
        | none => Except.ok (w2, rt, ctx2)
      else Except.ok (w2, rt, ctx2)

/-- `EnginalityRuntime.run_tick`: execute one Engine Tick.  Only
`RuntimeError` is caught by the breach handler; any other exception — and
any exception raised during step-1 initialization or during `_rollback`
itself — propagates to the caller. -/
def run_tick (env : Env W) (w : W) (rt : Runtime) (pending_deltas : List Delta)
    (domain_views : Option Views := none) (delta_time : Option ℚ := none) :
    Except (Exc × W × Runtime) (W × Runtime × TickContext) :=
  match _step1_init env w rt pending_deltas domain_views delta_time with
  | Except.error r => Except.error r
  | Except.ok (w1, rt1, ctx) =>
    match tickBody env w1 rt1 ctx with
    | Except.ok (w2, rt2, ctx1) =>
      if ctx1.breached then
        match _rollback env w2 rt2 ctx1 with
        | Except.error (e, w3, rt3, _c) => Except.error (e, w3, rt3)
        | Except.ok r => Except.ok r
      else Except.ok (w2, rt2, ctx1)
    | Except.error (e, w2, ctx1) =>
      match e with
      | Exc.runtimeError msg =>
        let ctx2 := _mark_breach ctx1 msg
        match _rollback env w2 rt1 ctx2 with
        | Except.error (e2, w3, rt3, _c) => Except.error (e2, w3, rt3)
        | Except.ok r => Except.ok r
      | _ => Except.error (e, w2, rt1)

/-! ### Specification-side helper definitions

Closed forms for the quantities `run_tick` computes, used to state the
theorems below; each is connected to the pipeline by a proved lemma. -/

/-- The deltas surviving the temporal fence of step 2. -/
def keptOf (m : Nat) (l : List Delta) : List Delta :=
  if l.length > m then l.take m else l

/-- The structurally valid survivors of step 2, normalized. -/
def validKept (m : Nat) (l : List Delta) : List Delta :=
  ((keptOf m l).filter fun d => _validate_delta_structure d).map _normalized_delta

/-- The deltas rejected by structural validation in step 2. -/
def rejectedOf (m : Nat) (l : List Delta) : List Delta :=
  (keptOf m l).filter fun d => ! _validate_delta_structure d

/-- The WARNING alert recorded for one structurally rejected delta. -/
def rejectAlert (tick : Int) (ts : ℚ) (d : Delta) : Alert :=
  ⟨"WARNING", 2, "Rejected malformed Delta " ++ d.id, tick, ts⟩

/-- The WARNING alert recorded by the temporal fence, with the overflow count. -/
def fenceAlert (tick : Int) (ts : ℚ) (overflow : Nat) : Alert :=
  ⟨"WARNING", 2, "Temporal fence: " ++ toString overflow ++ " Deltas pushed to next Tick",
    tick, ts⟩

/-- The alerts produced by step 2 on an unbreached tick. -/
def step2Alerts (m : Nat) (tick : Int) (ts : ℚ) (l : List Delta) : List Alert :=
  (if l.length > m then [fenceAlert tick ts (l.length - m)] else [])
    ++ (rejectedOf m l).map (rejectAlert tick ts)

/-- The INFO alert of step 11 when no `PerformerEngine` is attached. -/
def info11Alert (tick : Int) (ts : ℚ) : Alert :=
  ⟨"INFO", 11, "Tick complete (PerformerEngine not attached; performance no-op)", tick, ts⟩

/-- Repeated application of a (pure) kernel `apply_delta_in_place`. -/
def applyList (app : State → Delta → State) (s : State) (ds : List Delta) : State :=
  ds.foldl app s

/-- The inverse-delta list recorded by the step-6 loop for a pure kernel:
each inverse is computed against the state as it stands just before the
corresponding delta is applied; `none` when some inverse computation
fails. -/
def pureInverses (cinv : State → Delta → Option Delta) (app : State → Delta → State) :
    State → List Delta → Option (List Delta)
  | _, [] => some []
  | s, d :: ds =>
    match cinv s d with
    | none => none
    | some i => (pureInverses cinv app (app s d) ds).map fun l => i :: l

/-- The views held by the context after step 10 hydrates from the new
state (derived views take precedence on key collision; an empty result is
falsy in Python and triggers no update). -/
def viewsAfter (base post : Views) : Views :=
  if post.isEmpty then base else dictUpdate base post

/-- The context as it stands right before step 6 on a tick whose step-1
timeline check passed: fenced, validated, normalized, ordered, with the
ordered deltas unconditionally accepted (the bypassed Phase-2 stage). -/
def midCtx (rt : Runtime) (pending : List Delta) (dv : Option Views)
    (edt : Option ℚ) (now : ℚ) : TickContext :=
  { tick_id := rt.tick_counter + 1
    wall_clock_ts := now
    snapshot_in := rt.current_snapshot
    snapshot_out := none
    deltas_in := validKept rt.max_deltas_per_tick pending
    deltas_ordered := pySorted (validKept rt.max_deltas_per_tick pending)
    deltas_accepted := pySorted (validKept rt.max_deltas_per_tick pending)
    deltas_rejected := rejectedOf rt.max_deltas_per_tick pending
    inverse_deltas := []
    alerts := step2Alerts rt.max_deltas_per_tick (rt.tick_counter + 1) now pending
    fenced := decide (pending.length > rt.max_deltas_per_tick)
    breached := false
    breach_step := none
    timeline_hash_ok := true
    delta_time := dtSpec edt rt.last_wall_clock_ts now
    domain_views := dv.getD []
    performance_tasks := [] }

/-- The output snapshot of a fully successful tick over a pure kernel:
fresh id `snap_<tick>`, the new tick number, and the state obtained by
applying the accepted (fenced, validated, normalized, sorted) deltas in
order. -/
def happySnap (app : State → Delta → State) (rt : Runtime) (pending : List Delta) :
    Snapshot :=
  { id := _alloc_snapshot_id (rt.tick_counter + 1)
    tick := rt.tick_counter + 1
    zon4d_state := applyList app rt.current_snapshot.zon4d_state
      (pySorted (validKept rt.max_deltas_per_tick pending)) }

/-- The runtime after a fully successful tick: counter bumped, wall clock
recorded, output snapshot committed. -/
def happyRt (app : State → Delta → State) (rt : Runtime) (pending : List Delta)
    (now : ℚ) : Runtime :=
  { rt with
    tick_counter := rt.tick_counter + 1
    last_wall_clock_ts := some now
    current_snapshot := happySnap app rt pending }

/-- The context returned by a fully successful tick over a pure kernel
with no performer attached. -/
def happyCtx (app : State → Delta → State) (gen : State → Int → Views)
    (rt : Runtime) (pending : List Delta) (dv : Option Views) (edt : Option ℚ)
    (now : ℚ) (invs : List Delta) : TickContext :=
  { tick_id := rt.tick_counter + 1
    wall_clock_ts := now
    snapshot_in := rt.current_snapshot
    snapshot_out := some (happySnap app rt pending)
    deltas_in := validKept rt.max_deltas_per_tick pending
    deltas_ordered := pySorted (validKept rt.max_deltas_per_tick pending)
    deltas_accepted := pySorted (validKept rt.max_deltas_per_tick pending)
    deltas_rejected := rejectedOf rt.max_deltas_per_tick pending
    inverse_deltas := invs
    alerts := step2Alerts rt.max_deltas_per_tick (rt.tick_counter + 1) now pending
      ++ [info11Alert (rt.tick_counter + 1) now]
    fenced := decide (pending.length > rt.max_deltas_per_tick)
    breached := false
    breach_step := none
    timeline_hash_ok := true
    delta_time := dtSpec edt rt.last_wall_clock_ts now
    domain_views := viewsAfter (dv.getD [])
      (gen (happySnap app rt pending).zon4d_state (rt.tick_counter + 1))
    performance_tasks := [] }

/-- The runtime after a tick breached at step 6 and slow-path rollback
restored the last immutable anchor. -/
def breach6Rt (rt : Runtime) (now : ℚ) (anch : Snapshot) : Runtime :=
  { rt with
    tick_counter := rt.tick_counter + 1
    last_wall_clock_ts := some now
    current_snapshot := anch }

/-- The context returned by a tick whose post-mutation validation failed:
breached at step 6 with no recorded inverses, no output snapshot, and the
three CRITICAL/CRITICAL/INFO alerts of the breach and slow rollback. -/
def breach6Ctx (rt : Runtime) (pending : List Delta) (dv : Option Views)
    (edt : Option ℚ) (now : ℚ) : TickContext :=
  { tick_id := rt.tick_counter + 1
    wall_clock_ts := now
    snapshot_in := rt.current_snapshot
    snapshot_out := none
    deltas_in := validKept rt.max_deltas_per_tick pending
    deltas_ordered := pySorted (validKept rt.max_deltas_per_tick pending)
    deltas_accepted := pySorted (validKept rt.max_deltas_per_tick pending)
    deltas_rejected := rejectedOf rt.max_deltas_per_tick pending
    inverse_deltas := []
    alerts := step2Alerts rt.max_deltas_per_tick (rt.tick_counter + 1) now pending
      ++ [⟨"CRITICAL", 6, "ZON4D state validation failed", rt.tick_counter + 1, now⟩,
          ⟨"CRITICAL", 6, "Runtime breach: ZON4D validation failed after mutations",
            rt.tick_counter + 1, now⟩,
          ⟨"INFO", 6, "Slow-path rollback: restored last immutable anchor",
            rt.tick_counter + 1, now⟩]
    fenced := decide (pending.length > rt.max_deltas_per_tick)
    breached := true
    breach_step := some 6
    timeline_hash_ok := true
    delta_time := dtSpec edt rt.last_wall_clock_ts now
    domain_views := dv.getD []
    performance_tasks := [] }

/-- A tick context is rollback-safe when a breach step inside the fast
window 2–7 can only occur with no recorded inverse deltas; `_rollback`
then necessarily takes the slow path. -/
def RollbackSafe (c : TickContext) : Prop :=
  (2 ≤ pyOr c.breach_step (-1) ∧ pyOr c.breach_step (-1) ≤ 7) → c.inverse_deltas = []

/-- A collaborator outcome that either succeeds or raises `RuntimeError`
(the only exception class `run_tick`'s handler converts into the
breach/rollback machinery). -/
def OkOrRE {α : Type} (r : Except Exc α) : Prop :=
  (∃ v, r = Except.ok v) ∨ ∃ m, r = Except.error (Exc.runtimeError m)

/-! ### Concrete environments and inputs for witnesses and counterexamples -/

/-- A stateless environment over `W = Unit` built from pure collaborator
functions; the timeline check and anchor load may be set to raise. -/
def pureEnv (th : Except Exc Bool) (anchor : Except Exc Snapshot)
    (cinv : State → Delta → Option Delta) (app : State → Delta → State)
    (val : State → Bool) : Env Unit :=
  { timeNow := fun w => (0, w)
    timelineHashOk := fun w => (th, w)
    loadLastImmutableAnchor := fun w => (anchor, w)
    computeInverseDelta := fun w s d => (Except.ok (cinv s d), w)
    applyDeltaInPlace := fun w s d => (Except.ok (app s d), w)
    validateState := fun w s => (Except.ok (val s), w)
    generateDomainViews := fun w _ _ => (Except.ok [], w)
    performerStep := none
    schedulePerformance := fun w _ _ => (Except.ok (), w) }

/-- Int-valued lookup in a state map (for the additive demo kernel). -/
def stateGet (s : State) (k : String) : Int :=
  match s.find? (fun p => p.1 = k) with
  | some p => p.2
  | none => 0

/-- Demo kernel application: add the payload to the slot at `entity_ref`
(the test suite's `{op: add, amount: N}` kernel). -/
def addApp (s : State) (d : Delta) : State :=
  dictSet s d.entity_ref (stateGet s d.entity_ref + d.payload)

/-- Demo kernel inverse: an `add` delta is compensated by adding the
negated amount. -/
def addInv (_s : State) (d : Delta) : Option Delta :=
  some { d with id := "inv_" ++ d.id, payload := -d.payload, parent_ids := [] }

/-- A delta with the given id, source, target, temporal index and payload;
scope `(0, 0)`, no parents, empty metadata. -/
def mkDelta (i s e : String) (ti : ℚ) (amt : Int) : Delta :=
  ⟨i, s, e, ti, (0, 0), [], amt, []⟩

/-- The immutable anchor `{value: 0}` of the test Anchor Store. -/
def anchor0 : Snapshot :=
  { id := "snap_0", tick := 0, zon4d_state := [("value", 0)],
    hash32 := some "hash0", anchor_type := "immutable" }

/-- A runtime whose current snapshot `{value: 5}` differs from the last
immutable anchor. -/
def rtDrift : Runtime :=
  { max_deltas_per_tick := 1024, tick_counter := 3,
    current_snapshot := { id := "snap_3", tick := 3, zon4d_state := [("value", 5)] },
    last_wall_clock_ts := some 0 }

/-- A fresh runtime sitting at the anchor. -/
def rtFresh : Runtime :=
  { max_deltas_per_tick := 1024, tick_counter := 0,
    current_snapshot := anchor0, last_wall_clock_ts := none }

/-- A trivial state-reversing demo kernel (its own inverse). -/
def revApp (s : State) (_d : Delta) : State := s.reverse

/-- A demo inverse computation that returns the delta itself. -/
def selfInv (_s : State) (d : Delta) : Option Delta := some d

/-- A fresh runtime whose temporal fence admits only 3 deltas per tick. -/
def rtMax3 : Runtime :=
  { max_deltas_per_tick := 3, tick_counter := 0,
    current_snapshot := anchor0, last_wall_clock_ts := none }

/-- A runtime holding a mutated snapshot `{value: 15}`. -/
def rtVal15 : Runtime :=
  { max_deltas_per_tick := 1024, tick_counter := 1,
    current_snapshot := { id := "snap_1", tick := 1, zon4d_state := [("value", 15)] },
    last_wall_clock_ts := some 0 }

/-- A breached context with breach step 3 and one recorded inverse delta
(for exercising the rollback decision rule directly). -/
def ctxBreach3 : TickContext :=
  { tick_id := 1, wall_clock_ts := 0, snapshot_in := anchor0,
    breached := true, breach_step := some 3,
    inverse_deltas := [mkDelta "invd" "s" "value" 0 (-10)] }

/-! ### Step 2: ingestion lemmas -/

theorem ingestLoop_fst (ds : List Delta) : ∀ ctx : TickContext,
    (ingestLoop ctx ds).1 =
      (ds.filter fun d => _validate_delta_structure d).map _normalized_delta := by
  induction ds with
  | nil => intro ctx; simp [ingestLoop]
  | cons d ds ih =>
    intro ctx
    by_cases h : _validate_delta_structure d <;>
      simp [ingestLoop, h, ih]

theorem ingestLoop_snd (ds : List Delta) : ∀ ctx : TickContext,
    (ingestLoop ctx ds).2 = { ctx with
      deltas_rejected :=
        ctx.deltas_rejected ++ ds.filter fun d => ! _validate_delta_structure d
      alerts := ctx.alerts ++
        (ds.filter fun d => ! _validate_delta_structure d).map
          (rejectAlert ctx.tick_id ctx.wall_clock_ts) } := by
  induction ds with
  | nil => intro ctx; simp [ingestLoop]
  | cons d ds ih =>
    intro ctx
    cases h : _validate_delta_structure d with
    | true => simp [ingestLoop, h, ih]
    | false => simp [ingestLoop, h, ih, _alert, rejectAlert, List.append_assoc]

theorem _step2_ingest_eq (rt : Runtime) (ctx : TickContext) (hb : ctx.breached = false) :
    _step2_ingest rt ctx = { ctx with
      deltas_in := validKept rt.max_deltas_per_tick ctx.deltas_in
      deltas_rejected :=
        ctx.deltas_rejected ++ rejectedOf rt.max_deltas_per_tick ctx.deltas_in
      alerts := ctx.alerts ++
        step2Alerts rt.max_deltas_per_tick ctx.tick_id ctx.wall_clock_ts ctx.deltas_in
      fenced := ctx.fenced || decide (ctx.deltas_in.length > rt.max_deltas_per_tick) } := by
  unfold _step2_ingest
  by_cases hlen : ctx.deltas_in.length > rt.max_deltas_per_tick
  · simp only [hb, Bool.false_eq_true, if_false, if_pos hlen]
    rw [ingestLoop_snd, ingestLoop_fst]
    simp [validKept, rejectedOf, keptOf, step2Alerts, fenceAlert, _alert, hlen, hb]
  · simp only [hb, Bool.false_eq_true, if_false, if_neg hlen]
    rw [ingestLoop_snd, ingestLoop_fst]
    simp [validKept, rejectedOf, keptOf, step2Alerts, hlen, hb]

theorem _step2_ingest_breached (rt : Runtime) (ctx : TickContext)
    (hb : ctx.breached = true) : _step2_ingest rt ctx = ctx := by
  unfold _step2_ingest; rw [hb]; simp

/-! ### Step 3: ordering lemmas -/

theorem insertStable_perm (x : Delta) (l : List Delta) :
    (insertStable x l).Perm (x :: l) := by
  induction l with
  | nil => simp [insertStable]
  | cons y ys ih =>
    unfold insertStable
    by_cases h : sort_key x < sort_key y
    · simp [h]
    · simp only [if_neg h]
      exact ((ih.cons y).trans (List.Perm.swap x y ys))

theorem insertStable_sorted (x : Delta) (l : List Delta)
    (h : l.Pairwise fun u v => sort_key u ≤ sort_key v) :
    (insertStable x l).Pairwise fun u v => sort_key u ≤ sort_key v := by
  induction l with
  | nil => simp [insertStable]
  | cons y ys ih =>
    rcases List.pairwise_cons.mp h with ⟨hy, hys⟩
    unfold insertStable
    by_cases hxy : sort_key x < sort_key y
    · simp only [if_pos hxy]
      refine List.pairwise_cons.mpr ⟨?_, h⟩
      intro z hz
      rcases List.mem_cons.mp hz with rfl | hz
      · exact le_of_lt hxy
      · exact le_of_lt (lt_of_lt_of_le hxy (hy z hz))
    · simp only [if_neg hxy]
      refine List.pairwise_cons.mpr ⟨?_, ih hys⟩
      intro z hz
      have hz' := (insertStable_perm x ys).mem_iff.mp hz
      rcases List.mem_cons.mp hz' with rfl | hz2
      · exact le_of_not_lt hxy
      · exact hy z hz2

theorem pySorted_perm (l : List Delta) : (pySorted l).Perm l := by
  suffices h : ∀ acc : List Delta,
      (List.foldl (fun a d => insertStable d a) acc l).Perm (acc ++ l) by
    simpa [pySorted] using h []
  induction l with
  | nil => intro acc; simp
  | cons d ds ih =>
    intro acc
    have h1 : (List.foldl (fun a d => insertStable d a) (insertStable d acc) ds).Perm
        ((insertStable d acc) ++ ds) := ih (insertStable d acc)
    refine List.Perm.trans (by simpa [List.foldl] using h1) ?_
    refine List.Perm.trans ((insertStable_perm d acc).append_right ds) ?_
    exact List.perm_middle.symm

theorem pySorted_sorted (l : List Delta) :
    (pySorted l).Pairwise fun u v => sort_key u ≤ sort_key v := by
  suffices h : ∀ acc : List Delta,
      (acc.Pairwise fun u v => sort_key u ≤ sort_key v) →
      (List.foldl (fun a d => insertStable d a) acc l).Pairwise
        fun u v => sort_key u ≤ sort_key v by
    exact h [] (by simp)
  induction l with
  | nil => intro acc hacc; simpa using hacc
  | cons d ds ih =>
    intro acc hacc
    exact ih (insertStable d acc) (insertStable_sorted d acc hacc)

theorem _step3_temporal_order_eq (ctx : TickContext) (hb : ctx.breached = false) :
    _step3_temporal_order ctx = { ctx with deltas_ordered := pySorted ctx.deltas_in } := by
  unfold _step3_temporal_order; rw [hb]; simp

theorem _step3_temporal_order_breached (ctx : TickContext) (hb : ctx.breached = true) :
    _step3_temporal_order ctx = ctx := by
  unfold _step3_temporal_order; rw [hb]; simp

/-! ### Pure-kernel facts about the step-6 loop -/

theorem pureInverses_length {cinv : State → Delta → Option Delta}
    {app : State → Delta → State} :
    ∀ {s : State} {ds : List Delta} {invs : List Delta},
    pureInverses cinv app s ds = some invs → invs.length = ds.length := by
  intro s ds
  induction ds generalizing s with
  | nil => intro invs h; simp [pureInverses] at h; simp [← h]
  | cons d ds ih =>
    intro invs h
    unfold pureInverses at h
    cases hc : cinv s d with
    | none => rw [hc] at h; simp at h
    | some i =>
      rw [hc] at h
      cases hrec : pureInverses cinv app (app s d) ds with
      | none => rw [hrec] at h; simp at h
      | some l =>
        rw [hrec] at h
        simp at h
        rw [← h]
        simp [ih hrec]

theorem pureInverses_get {cinv : State → Delta → Option Delta}
    {app : State → Delta → State} :
    ∀ {s : State} {ds : List Delta} {invs : List Delta},
    pureInverses cinv app s ds = some invs →
    ∀ i (h1 : i < invs.length) (h2 : i < ds.length),
      some (invs.get ⟨i, h1⟩) =
        cinv (applyList app s (ds.take i)) (ds.get ⟨i, h2⟩) := by
  intro s ds
  induction ds generalizing s with
  | nil => intro invs _ i _ h2; exact absurd h2 (by simp)
  | cons d ds ih =>
    intro invs h i h1 h2
    unfold pureInverses at h
    cases hc : cinv s d with
    | none => rw [hc] at h; simp at h
    | some j =>
      rw [hc] at h
      cases hrec : pureInverses cinv app (app s d) ds with
      | none => rw [hrec] at h; simp at h
      | some l =>
        rw [hrec] at h
        simp at h
        subst h
        cases i with
        | zero => simpa [applyList] using hc.symm
        | succ i =>
          have := ih hrec i (by simpa using h1) (by simpa using h2)
          simpa [applyList] using this

theorem pureInverses_roundtrip {cinv : State → Delta → Option Delta}
    {app : State → Delta → State}
    (hc : ∀ s d i, cinv s d = some i → app (app s d) i = s) :
    ∀ {s : State} {ds : List Delta} {invs : List Delta},
    pureInverses cinv app s ds = some invs →
    applyList app (applyList app s ds) invs.reverse = s := by
  intro s ds
  induction ds generalizing s with
  | nil =>
    intro invs h
    simp only [pureInverses, Option.some.injEq] at h
    subst h
    simp [applyList]
  | cons d ds ih =>
    intro invs h
    unfold pureInverses at h
    cases hcv : cinv s d with
    | none => rw [hcv] at h; simp at h
    | some j =>
      rw [hcv] at h
      cases hrec : pureInverses cinv app (app s d) ds with
      | none => rw [hrec] at h; simp at h
      | some l =>
        rw [hrec] at h
        simp at h
        subst h
        have hmid := ih hrec
        simp only [applyList, List.reverse_cons, List.foldl_append, List.foldl_cons,
          List.foldl_nil] at *
        rw [hmid]
        exact hc s d j hcv

theorem step6Loop_pure (env : Env W)
    (cinv : State → Delta → Option Delta) (app : State → Delta → State)
    (hI : ∀ w s d, (env.computeInverseDelta w s d).1 = Except.ok (cinv s d))
    (hApp : ∀ w s d, (env.applyDeltaInPlace w s d).1 = Except.ok (app s d)) :
    ∀ (ds : List Delta) (w : W) (s : State) (ctx : TickContext) (invs : List Delta),
    pureInverses cinv app s ds = some invs →
    ∃ w1, step6Loop env w s ds ctx = Except.ok (w1, applyList app s ds, invs, ctx) := by
  intro ds
  induction ds with
  | nil =>
    intro w s ctx invs h
    simp only [pureInverses, Option.some.injEq] at h
    subst h
    exact ⟨w, by simp [step6Loop, applyList]⟩
  | cons d ds ih =>
    intro w s ctx invs h
    unfold pureInverses at h
    cases hcv : cinv s d with
    | none => rw [hcv] at h; simp at h
    | some j =>
      rw [hcv] at h
      cases hrec : pureInverses cinv app (app s d) ds with
      | none => rw [hrec] at h; simp at h
      | some l =>
        rw [hrec] at h
        simp at h
        subst h
        rcases hci : env.computeInverseDelta w s d with ⟨r1, w1⟩
        have hr1 : r1 = Except.ok (some j) := by
          have h0 := hI w s d; rw [hci] at h0; simpa [hcv] using h0
        subst hr1
        rcases hap : env.applyDeltaInPlace w1 s d with ⟨r2, w2⟩
        have hr2 : r2 = Except.ok (app s d) := by
          have h0 := hApp w1 s d; rw [hap] at h0; simpa using h0
        subst hr2
        obtain ⟨w3, hrecEq⟩ := ih w2 (app s d) ctx l hrec
        refine ⟨w3, ?_⟩
        simp [step6Loop, hci, hap, hrecEq, applyList]

theorem _step6_apply_deltas_pure_ok (env : Env W)
    (cinv : State → Delta → Option Delta) (app : State → Delta → State)
    (val : State → Bool)
    (hI : ∀ w s d, (env.computeInverseDelta w s d).1 = Except.ok (cinv s d))
    (hApp : ∀ w s d, (env.applyDeltaInPlace w s d).1 = Except.ok (app s d))
    (hV : ∀ w s, (env.validateState w s).1 = Except.ok (val s))
    (w : W) (ctx : TickContext) (hb : ctx.breached = false) (invs : List Delta)
    (hinv : pureInverses cinv app ctx.snapshot_in.zon4d_state ctx.deltas_accepted
      = some invs)
    (hval : val (applyList app ctx.snapshot_in.zon4d_state ctx.deltas_accepted) = true) :
    ∃ w2, _step6_apply_deltas env w ctx = Except.ok (w2, { ctx with
      snapshot_out := some
        { id := _alloc_snapshot_id ctx.tick_id
          tick := ctx.tick_id
          zon4d_state := applyList app ctx.snapshot_in.zon4d_state ctx.deltas_accepted }
      inverse_deltas := invs }) := by
  obtain ⟨w1, hloop⟩ := step6Loop_pure env cinv app hI hApp
    ctx.deltas_accepted w ctx.snapshot_in.zon4d_state ctx invs hinv
  rcases hvs : env.validateState w1
      (applyList app ctx.snapshot_in.zon4d_state ctx.deltas_accepted) with ⟨r, w2⟩
  have hr : r = Except.ok true := by
    have h0 := hV w1 (applyList app ctx.snapshot_in.zon4d_state ctx.deltas_accepted)
    rw [hvs] at h0; simpa [hval] using h0
  subst hr
  exact ⟨w2, by simp [_step6_apply_deltas, hb, hloop, hvs]⟩

theorem _step6_apply_deltas_pure_valfail (env : Env W)
    (cinv : State → Delta → Option Delta) (app : State → Delta → State)
    (val : State → Bool)
    (hI : ∀ w s d, (env.computeInverseDelta w s d).1 = Except.ok (cinv s d))
    (hApp : ∀ w s d, (env.applyDeltaInPlace w s d).1 = Except.ok (app s d))
    (hV : ∀ w s, (env.validateState w s).1 = Except.ok (val s))
    (w : W) (ctx : TickContext) (hb : ctx.breached = false) (invs : List Delta)
    (hinv : pureInverses cinv app ctx.snapshot_in.zon4d_state ctx.deltas_accepted
      = some invs)
    (hval : val (applyList app ctx.snapshot_in.zon4d_state ctx.deltas_accepted) = false) :
    ∃ w2, _step6_apply_deltas env w ctx =
      Except.error (Exc.runtimeError "ZON4D validation failed after mutations", w2,
        _breach ctx 6 "ZON4D state validation failed") := by
  obtain ⟨w1, hloop⟩ := step6Loop_pure env cinv app hI hApp
    ctx.deltas_accepted w ctx.snapshot_in.zon4d_state ctx invs hinv
  rcases hvs : env.validateState w1
      (applyList app ctx.snapshot_in.zon4d_state ctx.deltas_accepted) with ⟨r, w2⟩
  have hr : r = Except.ok false := by
    have h0 := hV w1 (applyList app ctx.snapshot_in.zon4d_state ctx.deltas_accepted)
    rw [hvs] at h0; simpa [hval] using h0
  subst hr
  exact ⟨w2, by simp [_step6_apply_deltas, hb, hloop, hvs]⟩

theorem _step10_pure (env : Env W) (gen : State → Int → Views)
    (hG : ∀ w s t, (env.generateDomainViews w s t).1 = Except.ok (gen s t))
    (w : W) (ctx : TickContext) (hb : ctx.breached = false) (so : Snapshot)
    (hso : ctx.snapshot_out = some so) :
    ∃ w1, _step10_generate_domain_views env w ctx =
      (w1, { ctx with
        domain_views := viewsAfter ctx.domain_views (gen so.zon4d_state ctx.tick_id) }) := by
  obtain ⟨tid, ts, sin, sout, din, dord, dacc, drej, dinv, al, fe, br, bs, th, dt, dv, pt⟩ := ctx
  simp only at hb hso
  subst hb
  subst hso
  rcases hgv : env.generateDomainViews w so.zon4d_state tid with ⟨r, w1⟩
  have hr : r = Except.ok (gen so.zon4d_state tid) := by
    have h0 := hG w so.zon4d_state tid; rw [hgv] at h0; simpa using h0
  subst hr
  refine ⟨w1, ?_⟩
  by_cases he : (gen so.zon4d_state tid).isEmpty <;>
    simp [_step10_generate_domain_views, hgv, viewsAfter, he]

theorem _step11_noperf (env : Env W) (hP : env.performerStep = none)
    (w : W) (ctx : TickContext) (hb : ctx.breached = false) :
    _step11_schedule_performance env w ctx =
      Except.ok (w, _alert ctx "INFO" 11
        "Tick complete (PerformerEngine not attached; performance no-op)") := by
  simp [_step11_schedule_performance, hb, hP]

/-! ### Step 1 and rollback lemmas -/

theorem _step1_init_ok (env : Env W) (w w1 w2 : W) (now : ℚ)
    (htn : env.timeNow w = (now, w1))
    (htl : env.timelineHashOk w1 = (Except.ok true, w2))
    (rt : Runtime) (pending : List Delta) (dv : Option Views) (edt : Option ℚ) :
    _step1_init env w rt pending dv edt = Except.ok (w2,
      { rt with tick_counter := rt.tick_counter + 1, last_wall_clock_ts := some now },
      { tick_id := rt.tick_counter + 1
        wall_clock_ts := now
        snapshot_in := rt.current_snapshot
        deltas_in := pending
        timeline_hash_ok := true
        delta_time := dtSpec edt rt.last_wall_clock_ts now
        domain_views := dv.getD [] }) := by
  simp [_step1_init, htn, htl, dtSpec]

theorem rollbackUseFast_false (c : TickContext) (hc : RollbackSafe c) (th : Bool) :
    rollbackUseFast th (pyOr c.breach_step (-1)) c.inverse_deltas = false := by
  unfold rollbackUseFast
  by_cases h2 : 2 ≤ pyOr c.breach_step (-1)
  · by_cases h7 : pyOr c.breach_step (-1) ≤ 7
    · have h0 : c.inverse_deltas = [] := hc ⟨h2, h7⟩
      simp [h0]
    · simp [h7]
  · simp [h2]

theorem _rollback_slow (env : Env W) (w : W) (rt : Runtime) (c : TickContext)
    (hc : RollbackSafe c) (th : Bool) (w1 : W)
    (hT : env.timelineHashOk w = (Except.ok th, w1)) :
    _rollback env w rt c =
      slowPath env w1 rt { c with timeline_hash_ok := th } (pyOr c.breach_step (-1)) := by
  unfold _rollback
  rw [hT]
  have h0 : rollbackUseFast th (pyOr c.breach_step (-1))
      ({ c with timeline_hash_ok := th } : TickContext).inverse_deltas = false := by
    simpa using rollbackUseFast_false c hc th
  simp [h0]

theorem slowPath_ok (env : Env W) (w : W) (rt : Runtime) (c : TickContext) (step : Int)
    (anch : Snapshot) (w1 : W)
    (hA : env.loadLastImmutableAnchor w = (Except.ok anch, w1)) :
    slowPath env w rt c step = Except.ok (w1, { rt with current_snapshot := anch },
      _alert c "INFO" step "Slow-path rollback: restored last immutable anchor") := by
  simp [slowPath, hA]

/-! ### Master characterizations of `run_tick` over a pure environment -/

theorem pre6_eq (rt : Runtime) (ctx : TickContext) (hb : ctx.breached = false) :
    ({ _step3_temporal_order (_step2_ingest rt ctx) with
        deltas_accepted := (_step3_temporal_order (_step2_ingest rt ctx)).deltas_ordered }
      : TickContext)
    = { ctx with
        deltas_in := validKept rt.max_deltas_per_tick ctx.deltas_in
        deltas_ordered := pySorted (validKept rt.max_deltas_per_tick ctx.deltas_in)
        deltas_accepted := pySorted (validKept rt.max_deltas_per_tick ctx.deltas_in)
        deltas_rejected :=
          ctx.deltas_rejected ++ rejectedOf rt.max_deltas_per_tick ctx.deltas_in
        alerts := ctx.alerts ++
          step2Alerts rt.max_deltas_per_tick ctx.tick_id ctx.wall_clock_ts ctx.deltas_in
        fenced := ctx.fenced || decide (ctx.deltas_in.length > rt.max_deltas_per_tick) }
    := by
  rw [_step2_ingest_eq _ _ hb]
  rw [_step3_temporal_order_eq _ (by simp [hb])]

theorem run_tick_pure_ok (env : Env W)
    (cinv : State → Delta → Option Delta) (app : State → Delta → State)
    (val : State → Bool) (gen : State → Int → Views)
    (hI : ∀ w s d, (env.computeInverseDelta w s d).1 = Except.ok (cinv s d))
    (hApp : ∀ w s d, (env.applyDeltaInPlace w s d).1 = Except.ok (app s d))
    (hV : ∀ w s, (env.validateState w s).1 = Except.ok (val s))
    (hG : ∀ w s t, (env.generateDomainViews w s t).1 = Except.ok (gen s t))
    (hP : env.performerStep = none)
    (hT : ∀ w, (env.timelineHashOk w).1 = Except.ok true)
    (w w1 : W) (now : ℚ) (htn : env.timeNow w = (now, w1))
    (rt : Runtime) (pending : List Delta) (dv : Option Views) (edt : Option ℚ)
    (invs : List Delta)
    (hinv : pureInverses cinv app rt.current_snapshot.zon4d_state
      (pySorted (validKept rt.max_deltas_per_tick pending)) = some invs)
    (hval : val (applyList app rt.current_snapshot.zon4d_state
      (pySorted (validKept rt.max_deltas_per_tick pending))) = true) :
    ∃ wf, run_tick env w rt pending dv edt =
      Except.ok (wf, happyRt app rt pending now,
        happyCtx app gen rt pending dv edt now invs) := by
  rcases htl : env.timelineHashOk w1 with ⟨r, w2⟩
  have hr : r = Except.ok true := by
    have h0 := hT w1; rw [htl] at h0; simpa using h0
  subst hr
  have h1 := _step1_init_ok env w w1 w2 now htn htl rt pending dv edt
  have hm := (pre6_eq
      { rt with tick_counter := rt.tick_counter + 1, last_wall_clock_ts := some now }
      { tick_id := rt.tick_counter + 1
        wall_clock_ts := now
        snapshot_in := rt.current_snapshot
        deltas_in := pending
        timeline_hash_ok := true
        delta_time := dtSpec edt rt.last_wall_clock_ts now
        domain_views := dv.getD [] } rfl).trans
    (by simp [midCtx] : _ = midCtx rt pending dv edt now)
  obtain ⟨w3, h6⟩ := _step6_apply_deltas_pure_ok env cinv app val hI hApp hV w2
    (midCtx rt pending dv edt now) rfl invs
    (by simpa [midCtx] using hinv) (by simpa [midCtx] using hval)
  obtain ⟨w4, h10⟩ := _step10_pure env gen hG w3
    ({ midCtx rt pending dv edt now with
        snapshot_out := some
          { id := _alloc_snapshot_id (midCtx rt pending dv edt now).tick_id
            tick := (midCtx rt pending dv edt now).tick_id
            zon4d_state := applyList app
              (midCtx rt pending dv edt now).snapshot_in.zon4d_state
              (midCtx rt pending dv edt now).deltas_accepted }
        inverse_deltas := invs }) rfl _ rfl
  have h11 := _step11_noperf env hP w4
    ({ { midCtx rt pending dv edt now with
          snapshot_out := some
            { id := _alloc_snapshot_id (midCtx rt pending dv edt now).tick_id
              tick := (midCtx rt pending dv edt now).tick_id
              zon4d_state := applyList app
                (midCtx rt pending dv edt now).snapshot_in.zon4d_state
                (midCtx rt pending dv edt now).deltas_accepted }
          inverse_deltas := invs } with
        domain_views := viewsAfter
          (midCtx rt pending dv edt now).domain_views
          (gen (applyList app (midCtx rt pending dv edt now).snapshot_in.zon4d_state
            (midCtx rt pending dv edt now).deltas_accepted)
            (midCtx rt pending dv edt now).tick_id) }) rfl
  refine ⟨w4, ?_⟩
  unfold run_tick
  rw [h1]
  unfold tickBody
  simp only [hm, h6, h10, h11]
  simp [happyRt, happyCtx, happySnap, midCtx, _alert, viewsAfter, info11Alert]

theorem run_tick_pure_valfail (env : Env W)
    (cinv : State → Delta → Option Delta) (app : State → Delta → State)
    (val : State → Bool) (anch : Snapshot)
    (hI : ∀ w s d, (env.computeInverseDelta w s d).1 = Except.ok (cinv s d))
    (hApp : ∀ w s d, (env.applyDeltaInPlace w s d).1 = Except.ok (app s d))
    (hV : ∀ w s, (env.validateState w s).1 = Except.ok (val s))
    (hT : ∀ w, (env.timelineHashOk w).1 = Except.ok true)
    (hA : ∀ w, (env.loadLastImmutableAnchor w).1 = Except.ok anch)
    (w w1 : W) (now : ℚ) (htn : env.timeNow w = (now, w1))
    (rt : Runtime) (pending : List Delta) (dv : Option Views) (edt : Option ℚ)
    (invs : List Delta)
    (hinv : pureInverses cinv app rt.current_snapshot.zon4d_state
      (pySorted (validKept rt.max_deltas_per_tick pending)) = some invs)
    (hval : val (applyList app rt.current_snapshot.zon4d_state
      (pySorted (validKept rt.max_deltas_per_tick pending))) = false) :
    ∃ wf, run_tick env w rt pending dv edt =
      Except.ok (wf, breach6Rt rt now anch, breach6Ctx rt pending dv edt now) := by
  rcases htl : env.timelineHashOk w1 with ⟨r, w2⟩
  have hr : r = Except.ok true := by
    have h0 := hT w1; rw [htl] at h0; simpa using h0
  subst hr
  have h1 := _step1_init_ok env w w1 w2 now htn htl rt pending dv edt
  have hm := (pre6_eq
      { rt with tick_counter := rt.tick_counter + 1, last_wall_clock_ts := some now }
      { tick_id := rt.tick_counter + 1
        wall_clock_ts := now
        snapshot_in := rt.current_snapshot
        deltas_in := pending
        timeline_hash_ok := true
        delta_time := dtSpec edt rt.last_wall_clock_ts now
        domain_views := dv.getD [] } rfl).trans
    (by simp [midCtx] : _ = midCtx rt pending dv edt now)
  obtain ⟨w3, h6⟩ := _step6_apply_deltas_pure_valfail env cinv app val hI hApp hV w2
    (midCtx rt pending dv edt now) rfl invs
    (by simpa [midCtx] using hinv) (by simpa [midCtx] using hval)
  rcases htl2 : env.timelineHashOk w3 with ⟨r2, w4⟩
  have hr2 : r2 = Except.ok true := by
    have h0 := hT w3; rw [htl2] at h0; simpa using h0
  subst hr2
  rcases hld : env.loadLastImmutableAnchor w4 with ⟨ra, w5⟩
  have hra : ra = Except.ok anch := by
    have h0 := hA w4; rw [hld] at h0; simpa using h0
  subst hra
  have hrb := _rollback_slow env w3
    { rt with tick_counter := rt.tick_counter + 1, last_wall_clock_ts := some now }
    (_mark_breach (_breach (midCtx rt pending dv edt now) 6
      "ZON4D state validation failed") "ZON4D validation failed after mutations")
    (by intro h0; simp [_mark_breach, _breach, _alert, midCtx]) true w4
    (by simpa [_mark_breach, _breach, _alert, midCtx] using htl2)
  refine ⟨w5, ?_⟩
  unfold run_tick
  rw [h1]
  unfold tickBody
  simp only [hm, h6]
  rw [show pyOr (_mark_breach (_breach (midCtx rt pending dv edt now) 6
      "ZON4D state validation failed")
      "ZON4D validation failed after mutations").breach_step (-1) = 6 from by
    simp [_mark_breach, _breach, _alert, midCtx, pyOr]] at hrb
  rw [slowPath_ok env w4 _ _ 6 anch w5 hld] at hrb
  simp only [hrb]
  simp [breach6Rt, breach6Ctx, midCtx, _mark_breach, _breach, _alert, pyOr]

/-! ### General-environment facts: arbitrary collaborator behaviour -/

theorem step6Loop_ok (env : Env W) : ∀ (ds : List Delta) (w : W) (s : State)
    (ctx : TickContext) {w1 : W} {st : State} {invs : List Delta} {c1 : TickContext},
    step6Loop env w s ds ctx = Except.ok (w1, st, invs, c1) → c1 = ctx := by
  intro ds
  induction ds with
  | nil =>
    intro w s ctx w1 st invs c1 h
    simp only [step6Loop, Except.ok.injEq, Prod.mk.injEq] at h
    exact h.2.2.2.symm
  | cons d ds ih =>
    intro w s ctx w1 st invs c1 h
    unfold step6Loop at h
    rcases hci : env.computeInverseDelta w s d with ⟨r1, wa⟩
    rw [hci] at h
    match r1 with
    | Except.error e => simp at h
    | Except.ok none => simp at h
    | Except.ok (some inv) =>
      simp only at h
      rcases hap : env.applyDeltaInPlace wa s d with ⟨r2, wb⟩
      rw [hap] at h
      match r2 with
      | Except.error e => simp at h
      | Except.ok st1 =>
        simp only at h
        rcases hrec : step6Loop env wb st1 ds ctx with hres | ⟨wc, stc, invsc, cc⟩
        · rw [hrec] at h; simp at h
        · rw [hrec] at h
          simp only [Except.ok.injEq, Prod.mk.injEq] at h
          have := ih wb st1 ctx hrec
          rw [← h.2.2.2]
          exact this

theorem step6Loop_error (env : Env W) : ∀ (ds : List Delta) (w : W) (s : State)
    (ctx : TickContext) {e : Exc} {w1 : W} {c1 : TickContext},
    step6Loop env w s ds ctx = Except.error (e, w1, c1) →
    ((c1 = ctx ∧ ((∃ wa sa da, (env.computeInverseDelta wa sa da).1 = Except.error e) ∨
       (∃ wa sa da, (env.applyDeltaInPlace wa sa da).1 = Except.error e))) ∨
     (∃ d : Delta, c1 = _breach ctx 6 ("Cannot compute inverse for Delta " ++ d.id) ∧
       e = Exc.runtimeError "Inverse Delta computation failed")) := by
  intro ds
  induction ds with
  | nil => intro w s ctx e w1 c1 h; simp [step6Loop] at h
  | cons d ds ih =>
    intro w s ctx e w1 c1 h
    unfold step6Loop at h
    rcases hci : env.computeInverseDelta w s d with ⟨r1, wa⟩
    rw [hci] at h
    match r1 with
    | Except.error e0 =>
      simp only [Except.error.injEq, Prod.mk.injEq] at h
      refine Or.inl ⟨h.2.2.symm, Or.inl ⟨w, s, d, ?_⟩⟩
      rw [hci, ← h.1]
    | Except.ok none =>
      simp only [Except.error.injEq, Prod.mk.injEq] at h
      exact Or.inr ⟨d, h.2.2.symm, h.1.symm⟩
    | Except.ok (some inv) =>
      simp only at h
      rcases hap : env.applyDeltaInPlace wa s d with ⟨r2, wb⟩
      rw [hap] at h
      match r2 with
      | Except.error e0 =>
        simp only [Except.error.injEq, Prod.mk.injEq] at h
        refine Or.inl ⟨h.2.2.symm, Or.inr ⟨wa, s, d, ?_⟩⟩
        rw [hap, ← h.1]
      | Except.ok st1 =>
        simp only at h
        rcases hrec : step6Loop env wb st1 ds ctx with ⟨ee, we, ce⟩ | ⟨wc, stc, invsc, cc⟩
        · rw [hrec] at h
          simp only [Except.error.injEq, Prod.mk.injEq] at h
          obtain ⟨h1, h2, h3⟩ := h
          subst h1; subst h3
          exact ih wb st1 ctx hrec
        · rw [hrec] at h; simp at h

theorem _step6_apply_deltas_ok (env : Env W) (w : W) (ctx : TickContext)
    {w1 : W} {c1 : TickContext}
    (h : _step6_apply_deltas env w ctx = Except.ok (w1, c1)) :
    (ctx.breached = true ∧ c1 = ctx) ∨
    (ctx.breached = false ∧ ∃ snap invs, c1 = { ctx with
      snapshot_out := some snap, inverse_deltas := invs }) := by
  unfold _step6_apply_deltas at h
  by_cases hb : ctx.breached
  · simp only [hb, if_true] at h
    simp only [Except.ok.injEq, Prod.mk.injEq] at h
    exact Or.inl ⟨hb, h.2.symm⟩
  · simp only [hb, if_false, Bool.false_eq_true] at h
    rcases hloop : step6Loop env w ctx.snapshot_in.zon4d_state ctx.deltas_accepted ctx
      with hres | ⟨wa, st, invs, ca⟩
    · rw [hloop] at h; simp at h
    · rw [hloop] at h
      have hca : ca = ctx := step6Loop_ok env _ _ _ _ hloop
      subst hca
      simp only at h
      rcases hvs : env.validateState wa st with ⟨r, wb⟩
      rw [hvs] at h
      match r with
      | Except.error e => simp at h
      | Except.ok false => simp at h
      | Except.ok true =>
        simp only [Except.ok.injEq, Prod.mk.injEq] at h
        refine Or.inr ⟨by simpa using hb, _, invs, h.2.symm⟩

theorem _step6_apply_deltas_error (env : Env W) (w : W) (ctx : TickContext)
    {e : Exc} {w1 : W} {c1 : TickContext}
    (h : _step6_apply_deltas env w ctx = Except.error (e, w1, c1)) :
    (c1 = ctx ∨ ∃ msg, c1 = _breach ctx 6 msg) ∧
    ((∃ wa sa da, (env.computeInverseDelta wa sa da).1 = Except.error e) ∨
     (∃ wa sa da, (env.applyDeltaInPlace wa sa da).1 = Except.error e) ∨
     (∃ wa sa, (env.validateState wa sa).1 = Except.error e) ∨
     (∃ m, e = Exc.runtimeError m)) := by
  unfold _step6_apply_deltas at h
  by_cases hb : ctx.breached
  · simp [hb] at h
  · simp only [hb, if_false, Bool.false_eq_true] at h
    rcases hloop : step6Loop env w ctx.snapshot_in.zon4d_state ctx.deltas_accepted ctx
      with ⟨ee, we, ce⟩ | ⟨wa, st, invs, ca⟩
    · rw [hloop] at h
      simp only [Except.error.injEq, Prod.mk.injEq] at h
      obtain ⟨h1, h2, h3⟩ := h
      subst h1; subst h3
      rcases step6Loop_error env _ _ _ _ hloop with ⟨hc, hsrc⟩ | ⟨d, hc, hexc⟩
      · exact ⟨Or.inl hc, hsrc.elim (fun hx => Or.inl hx) (fun hx => Or.inr (Or.inl hx))⟩
      · exact ⟨Or.inr ⟨_, hc⟩, Or.inr (Or.inr (Or.inr ⟨_, hexc⟩))⟩
    · rw [hloop] at h
      have hca : ca = ctx := step6Loop_ok env _ _ _ _ hloop
      subst hca
      simp only at h
      rcases hvs : env.validateState wa st with ⟨r, wb⟩
      rw [hvs] at h
      match r with
      | Except.error e0 =>
        simp only [Except.error.injEq, Prod.mk.injEq] at h
        obtain ⟨h1, h2, h3⟩ := h
        subst h1; subst h3
        exact ⟨Or.inl rfl, Or.inr (Or.inr (Or.inl ⟨wa, st, by rw [hvs]⟩))⟩
      | Except.ok false =>
        simp only [Except.error.injEq, Prod.mk.injEq] at h
        obtain ⟨h1, h2, h3⟩ := h
        subst h1; subst h3
        exact ⟨Or.inr ⟨_, rfl⟩, Or.inr (Or.inr (Or.inr ⟨_, rfl⟩))⟩
      | Except.ok true => simp at h

theorem _step10_fields (env : Env W) (w : W) (ctx : TickContext) :
    (_step10_generate_domain_views env w ctx).2.breached = ctx.breached ∧
    (_step10_generate_domain_views env w ctx).2.breach_step = ctx.breach_step ∧
    (_step10_generate_domain_views env w ctx).2.inverse_deltas = ctx.inverse_deltas ∧
    (_step10_generate_domain_views env w ctx).2.delta_time = ctx.delta_time ∧
    (_step10_generate_domain_views env w ctx).2.snapshot_out = ctx.snapshot_out := by
  unfold _step10_generate_domain_views
  by_cases hb : ctx.breached
  · simp [hb]
  · have hb2 : ctx.breached = false := by simpa using hb
    simp only [hb2, Bool.false_eq_true, if_false]
    rcases hso : ctx.snapshot_out with _ | so
    · simp [hso, hb2]
    · rcases hgv : env.generateDomainViews w so.zon4d_state ctx.tick_id with ⟨r, wa⟩
      match r with
      | Except.ok post =>
        by_cases he : post.isEmpty <;> simp [hgv, he, hso, _alert, hb2]
      | Except.error (Exc.importError m) => simp [hgv, hso, _alert, hb2]
      | Except.error (Exc.runtimeError m) => simp [hgv, hso, _alert, hb2]
      | Except.error (Exc.otherError m) => simp [hgv, hso, _alert, hb2]

theorem _step11_ok_fields (env : Env W) (w : W) (ctx : TickContext)
    {w1 : W} {c1 : TickContext}
    (h : _step11_schedule_performance env w ctx = Except.ok (w1, c1)) :
    c1.breached = ctx.breached ∧ c1.breach_step = ctx.breach_step ∧
    c1.inverse_deltas = ctx.inverse_deltas ∧ c1.delta_time = ctx.delta_time ∧
    c1.snapshot_out = ctx.snapshot_out := by
  unfold _step11_schedule_performance at h
  by_cases hb : ctx.breached
  · simp only [hb, if_true, Except.ok.injEq, Prod.mk.injEq] at h
    rw [← h.2]
    exact ⟨rfl, rfl, rfl, rfl, rfl⟩
  · simp only [hb, if_false, Bool.false_eq_true] at h
    rcases hps : env.performerStep with _ | f
    · rw [hps] at h
      simp only [Except.ok.injEq, Prod.mk.injEq] at h
      rw [← h.2]
      simp [_alert]
    · rw [hps] at h
      simp only at h
      rcases hcall : f w ctx.tick_id ctx.delta_time ctx.domain_views with ⟨r, wa⟩
      rw [hcall] at h
      match r with
      | Except.error e => simp at h
      | Except.ok tasks =>
        simp only at h
        rcases hsch : env.schedulePerformance wa ctx.tick_id tasks with ⟨r2, wb⟩
        simp only [hsch] at h
        match r2 with
        | Except.error e => simp at h
        | Except.ok _ =>
          simp only [Except.ok.injEq, Prod.mk.injEq] at h
          rw [← h.2]
          simp [_alert, eq_false_of_ne_true hb]

theorem _step11_error_fields (env : Env W) (w : W) (ctx : TickContext)
    {e : Exc} {w1 : W} {c1 : TickContext}
    (h : _step11_schedule_performance env w ctx = Except.error (e, w1, c1)) :
    (c1.breached = ctx.breached ∧ c1.breach_step = ctx.breach_step ∧
     c1.delta_time = ctx.delta_time) ∧
    ((∃ f wa t q v, env.performerStep = some f ∧ (f wa t q v).1 = Except.error e) ∨
     (∃ wa t ts, (env.schedulePerformance wa t ts).1 = Except.error e)) := by
  unfold _step11_schedule_performance at h
  by_cases hb : ctx.breached
  · simp [hb] at h
  · simp only [hb, if_false, Bool.false_eq_true] at h
    rcases hps : env.performerStep with _ | f
    · rw [hps] at h; simp at h
    · rw [hps] at h
      simp only at h
      rcases hcall : f w ctx.tick_id ctx.delta_time ctx.domain_views with ⟨r, wa⟩
      rw [hcall] at h
      match r with
      | Except.error e0 =>
        simp only [Except.error.injEq, Prod.mk.injEq] at h
        obtain ⟨h1, h2, h3⟩ := h
        subst h1; subst h3
        exact ⟨⟨rfl, rfl, rfl⟩, Or.inl ⟨f, w, _, _, _, rfl, by rw [hcall]⟩⟩
      | Except.ok tasks =>
        simp only at h
        rcases hsch : env.schedulePerformance wa ctx.tick_id tasks with ⟨r2, wb⟩
        simp only [hsch] at h
        match r2 with
        | Except.error e0 =>
          simp only [Except.error.injEq, Prod.mk.injEq] at h
          obtain ⟨h1, h2, h3⟩ := h
          subst h1
          rw [← h3]
          exact ⟨⟨(eq_false_of_ne_true hb).symm, rfl, rfl⟩,
            Or.inr ⟨wa, _, _, by rw [hsch]⟩⟩
        | Except.ok _ => simp at h

theorem _step2_fields (rt : Runtime) (ctx : TickContext) :
    (_step2_ingest rt ctx).breached = ctx.breached ∧
    (_step2_ingest rt ctx).breach_step = ctx.breach_step ∧
    (_step2_ingest rt ctx).delta_time = ctx.delta_time ∧
    (_step2_ingest rt ctx).inverse_deltas = ctx.inverse_deltas ∧
    (_step2_ingest rt ctx).snapshot_out = ctx.snapshot_out := by
  by_cases hb : ctx.breached
  · rw [_step2_ingest_breached rt ctx (by simpa using hb)]
    exact ⟨rfl, rfl, rfl, rfl, rfl⟩
  · rw [_step2_ingest_eq rt ctx (by simpa using hb)]
    exact ⟨rfl, rfl, rfl, rfl, rfl⟩

theorem _step3_fields (ctx : TickContext) :
    (_step3_temporal_order ctx).breached = ctx.breached ∧
    (_step3_temporal_order ctx).breach_step = ctx.breach_step ∧
    (_step3_temporal_order ctx).delta_time = ctx.delta_time ∧
    (_step3_temporal_order ctx).inverse_deltas = ctx.inverse_deltas ∧
    (_step3_temporal_order ctx).snapshot_out = ctx.snapshot_out := by
  by_cases hb : ctx.breached
  · rw [_step3_temporal_order_breached ctx (by simpa using hb)]
    exact ⟨rfl, rfl, rfl, rfl, rfl⟩
  · rw [_step3_temporal_order_eq ctx (by simpa using hb)]
    exact ⟨rfl, rfl, rfl, rfl, rfl⟩

theorem tickBody_ok_cases (env : Env W) (w : W) (rt : Runtime) (ctx : TickContext)
    {w1 : W} {rt1 : Runtime} {c1 : TickContext}
    (h : tickBody env w rt ctx = Except.ok (w1, rt1, c1)) :
    c1.delta_time = ctx.delta_time ∧ c1.breached = ctx.breached ∧
    c1.breach_step = ctx.breach_step ∧
    (c1.breached = true → rt1 = rt) ∧
    (c1.breached = false →
      ((c1.snapshot_out = none ∧ rt1 = rt) ∨
       (∃ so, c1.snapshot_out = some so ∧
         rt1 = { rt with current_snapshot := so }))) := by
  obtain ⟨hf2a, hf2b, hf2c, hf2d, hf2e⟩ := _step2_fields rt ctx
  obtain ⟨hf3a, hf3b, hf3c, hf3d, hf3e⟩ := _step3_fields (_step2_ingest rt ctx)
  unfold tickBody at h
  dsimp only at h
  split at h
  · exact absurd h (by simp)
  · rename_i wa ca heq6
    have hca := _step6_apply_deltas_ok env w _ heq6
    have hcaB : ca.breached = ctx.breached ∧ ca.breach_step = ctx.breach_step ∧
        ca.delta_time = ctx.delta_time := by
      rcases hca with ⟨hb0, hc0⟩ | ⟨hb0, snap, invs, hc0⟩ <;>
        · subst hc0
          refine ⟨?_, ?_, ?_⟩ <;>
            simp only [hf3a, hf3b, hf3c, hf2a, hf2b, hf2c]
    obtain ⟨hgA, hgB, hgC, hgD, hgE⟩ :=
      _step10_fields env wa ca
    split at h
    · exact absurd h (by simp)
    · rename_i wc cc heq11
      have hs := _step11_ok_fields env _ _ heq11
      obtain ⟨hsA, hsB, hsC, hsD, hsE⟩ := hs
      have hccB : cc.breached = ctx.breached := by rw [hsA, hgA, hcaB.1]
      have hccS : cc.breach_step = ctx.breach_step := by rw [hsB, hgB, hcaB.2.1]
      have hccD : cc.delta_time = ctx.delta_time := by rw [hsD, hgD, hcaB.2.2]
      split at h
      · rename_i hbc
        split at h
        · rename_i so hso
          simp only [Except.ok.injEq, Prod.mk.injEq] at h
          obtain ⟨hw, hrt, hc⟩ := h
          subst hc; subst hrt
          refine ⟨hccD, hccB, hccS, ?_, ?_⟩
          · intro hcc; exact absurd (hbc.symm.trans hcc) (by simp)
          · intro _; exact Or.inr ⟨so, hso, rfl⟩
        · rename_i hso
          simp only [Except.ok.injEq, Prod.mk.injEq] at h
          obtain ⟨hw, hrt, hc⟩ := h
          subst hc; subst hrt
          refine ⟨hccD, hccB, hccS, ?_, ?_⟩
          · intro hcc; exact absurd (hbc.symm.trans hcc) (by simp)
          · intro _; exact Or.inl ⟨hso, rfl⟩
      · rename_i hbc
        simp only [Except.ok.injEq, Prod.mk.injEq] at h
        obtain ⟨hw, hrt, hc⟩ := h
        subst hc; subst hrt
        refine ⟨hccD, hccB, hccS, fun _ => rfl, fun hcc => absurd hcc hbc⟩

theorem rollbackSafe_of_step (c : TickContext)
    (h : c.breach_step = none ∨ c.breach_step = some 1) : RollbackSafe c := by
  intro h27
  rcases h with h0 | h0 <;> rw [h0] at h27 <;> simp [pyOr] at h27

theorem rollbackSafe_of_empty (c : TickContext)
    (h : c.inverse_deltas = []) : RollbackSafe c := fun _ => h

theorem OkOrRE_error {α : Type} {r : Except Exc α} {e : Exc}
    (h1 : OkOrRE r) (h2 : r = Except.error e) : ∃ m, e = Exc.runtimeError m := by
  rcases h1 with ⟨v, hv⟩ | ⟨m, hm⟩
  · rw [hv] at h2; exact absurd h2 (by simp)
  · rw [hm] at h2
    simp only [Except.error.injEq] at h2
    exact ⟨m, h2.symm⟩

theorem tickBody_error_cases (env : Env W) (w : W) (rt : Runtime) (ctx : TickContext)
    (hinv0 : ctx.inverse_deltas = [])
    (hbs0 : ctx.breach_step = none ∨ ctx.breach_step = some 1)
    {e : Exc} {w1 : W} {c1 : TickContext}
    (h : tickBody env w rt ctx = Except.error (e, w1, c1)) :
    c1.delta_time = ctx.delta_time ∧ RollbackSafe c1 := by
  obtain ⟨hf2a, hf2b, hf2c, hf2d, hf2e⟩ := _step2_fields rt ctx
  obtain ⟨hf3a, hf3b, hf3c, hf3d, hf3e⟩ := _step3_fields (_step2_ingest rt ctx)
  unfold tickBody at h
  dsimp only at h
  split at h
  · rename_i r heq6
    simp only [Except.error.injEq] at h
    subst h
    obtain ⟨hcs, _⟩ := _step6_apply_deltas_error env w _ heq6
    rcases hcs with hc0 | ⟨msg, hc0⟩
    · subst hc0
      constructor
      · simp only [hf3c, hf2c]
      · refine rollbackSafe_of_step _ ?_
        simp only [hf3b, hf2b]
        exact hbs0
    · subst hc0
      constructor
      · simp only [_breach, _alert, hf3c, hf2c]
      · refine rollbackSafe_of_empty _ ?_
        simp only [_breach, _alert, hf3d, hf2d]
        exact hinv0
  · rename_i wa ca heq6
    have hca := _step6_apply_deltas_ok env w _ heq6
    have hcaB : ca.breach_step = ctx.breach_step ∧ ca.delta_time = ctx.delta_time := by
      rcases hca with ⟨hb0, hc0⟩ | ⟨hb0, snap, invs, hc0⟩ <;>
        · subst hc0
          refine ⟨?_, ?_⟩ <;>
            simp only [hf3b, hf3c, hf2b, hf2c]
    obtain ⟨hgA, hgB, hgC, hgD, hgE⟩ := _step10_fields env wa ca
    split at h
    · rename_i r heq11
      simp only [Except.error.injEq] at h
      subst h
      obtain ⟨⟨hsA, hsB, hsC⟩, _⟩ := _step11_error_fields env _ _ heq11
      constructor
      · rw [hsC, hgD, hcaB.2]
      · refine rollbackSafe_of_step _ ?_
        rw [hsB, hgB, hcaB.1]
        exact hbs0
    · split at h
      · split at h <;> exact absurd h (by simp)
      · exact absurd h (by simp)

theorem tickBody_error_exc (env : Env W) (w : W) (rt : Runtime) (ctx : TickContext)
    (hIre : ∀ w s d, OkOrRE (env.computeInverseDelta w s d).1)
    (hAre : ∀ w s d, OkOrRE (env.applyDeltaInPlace w s d).1)
    (hVre : ∀ w s, OkOrRE (env.validateState w s).1)
    (hPre : ∀ f wa t q v, env.performerStep = some f → OkOrRE (f wa t q v).1)
    (hSre : ∀ wa t ts, OkOrRE (env.schedulePerformance wa t ts).1)
    {e : Exc} {w1 : W} {c1 : TickContext}
    (h : tickBody env w rt ctx = Except.error (e, w1, c1)) :
    ∃ m, e = Exc.runtimeError m := by
  unfold tickBody at h
  dsimp only at h
  split at h
  · rename_i r heq6
    simp only [Except.error.injEq] at h
    subst h
    obtain ⟨_, hsrc⟩ := _step6_apply_deltas_error env w _ heq6
    rcases hsrc with ⟨wa, sa, da, hx⟩ | ⟨wa, sa, da, hx⟩ | ⟨wa, sa, hx⟩ | hok
    · exact OkOrRE_error (hIre wa sa da) hx
    · exact OkOrRE_error (hAre wa sa da) hx
    · exact OkOrRE_error (hVre wa sa) hx
    · exact hok
  · rename_i wa ca heq6
    split at h
    · rename_i r heq11
      simp only [Except.error.injEq] at h
      subst h
      obtain ⟨_, hsrc⟩ := _step11_error_fields env _ _ heq11
      rcases hsrc with ⟨f, wb, t, q, v, hf, hx⟩ | ⟨wb, t, ts, hx⟩
      · exact OkOrRE_error (hPre f wb t q v hf) hx
      · exact OkOrRE_error (hSre wb t ts) hx
    · split at h
      · split at h <;> exact absurd h (by simp)
      · exact absurd h (by simp)

theorem _mark_breach_fields (c : TickContext) (m : String) :
    (_mark_breach c m).breached = true ∧
    (_mark_breach c m).breach_step = c.breach_step ∧
    (_mark_breach c m).inverse_deltas = c.inverse_deltas ∧
    (_mark_breach c m).delta_time = c.delta_time := by
  simp [_mark_breach, _alert]

theorem _step1_init_cases (env : Env W) (w : W) (rt : Runtime)
    (pending : List Delta) (dv : Option Views) (edt : Option ℚ)
    {w2 : W} {rtA : Runtime} {ctx0 : TickContext}
    (h : _step1_init env w rt pending dv edt = Except.ok (w2, rtA, ctx0)) :
    ctx0.inverse_deltas = [] ∧
    (ctx0.breach_step = none ∨ ctx0.breach_step = some 1) ∧
    (ctx0.breached = false → ctx0.breach_step = none) ∧
    ctx0.delta_time = dtSpec edt rt.last_wall_clock_ts (env.timeNow w).1 ∧
    rtA.current_snapshot = rt.current_snapshot := by
  unfold _step1_init at h
  dsimp only at h
  split at h
  · exact absurd h (by simp)
  · rename_i b w3 heq
    split at h <;>
    · simp only [Except.ok.injEq, Prod.mk.injEq] at h
      obtain ⟨hw, hrt, hc⟩ := h
      subst hc; subst hrt
      refine ⟨by simp [_breach, _alert], by simp [_breach, _alert],
        by simp [_breach, _alert], by simp [_breach, _alert], rfl⟩

theorem _rollback_ok_cases (env : Env W) (w : W) (rt : Runtime) (c : TickContext)
    (hc : RollbackSafe c) {w1 : W} {rt1 : Runtime} {c1 : TickContext}
    (h : _rollback env w rt c = Except.ok (w1, rt1, c1)) :
    c1.breached = c.breached ∧ c1.breach_step = c.breach_step ∧
    c1.delta_time = c.delta_time ∧ c1.inverse_deltas = c.inverse_deltas ∧
    c1.snapshot_out = c.snapshot_out ∧
    ∃ wa wb anch, env.loadLastImmutableAnchor wa = (Except.ok anch, wb) ∧
      rt1 = { rt with current_snapshot := anch } := by
  rcases htl : env.timelineHashOk w with ⟨r, wa⟩
  match r with
  | Except.error e0 =>
    unfold _rollback at h
    rw [htl] at h
    simp at h
  | Except.ok th =>
    rw [_rollback_slow env w rt c hc th wa htl] at h
    unfold slowPath at h
    rcases hld : env.loadLastImmutableAnchor wa with ⟨ra, wb⟩
    rw [hld] at h
    match ra with
    | Except.error e0 => simp at h
    | Except.ok anch =>
      simp only [Except.ok.injEq, Prod.mk.injEq] at h
      obtain ⟨h1, h2, h3⟩ := h
      subst h2
      rw [← h3]
      exact ⟨by simp [_alert], by simp [_alert], by simp [_alert], by simp [_alert],
        by simp [_alert], wa, wb, anch, hld, rfl⟩

theorem _rollback_total (env : Env W) (w : W) (rt : Runtime) (c : TickContext)
    (hc : RollbackSafe c)
    (hTok : ∀ w, ∃ b, (env.timelineHashOk w).1 = Except.ok b)
    (hAok : ∀ w, ∃ s, (env.loadLastImmutableAnchor w).1 = Except.ok s) :
    ∃ r, _rollback env w rt c = Except.ok r := by
  rcases htl : env.timelineHashOk w with ⟨r, wa⟩
  obtain ⟨b, hb⟩ := hTok w
  rw [htl] at hb
  simp only at hb
  subst hb
  rw [_rollback_slow env w rt c hc b wa htl]
  unfold slowPath
  rcases hld : env.loadLastImmutableAnchor wa with ⟨ra, wb⟩
  obtain ⟨s, hs⟩ := hAok wa
  rw [hld] at hs
  simp only at hs
  subst hs
  exact ⟨_, rfl⟩

/-- Complete case analysis of a completed `run_tick` call over an
arbitrary environment: the returned context's `delta_time`, its
rollback-safety, and the commit/rollback effect on `current_snapshot`. -/
theorem run_tick_ok_cases (env : Env W) (w : W) (rt : Runtime)
    (pending : List Delta) (dv : Option Views) (edt : Option ℚ)
    {wf : W} {rtf : Runtime} {cf : TickContext}
    (h : run_tick env w rt pending dv edt = Except.ok (wf, rtf, cf)) :
    cf.delta_time = dtSpec edt rt.last_wall_clock_ts (env.timeNow w).1 ∧
    RollbackSafe cf ∧
    (cf.breached = false →
      ((cf.snapshot_out = none ∧ rtf.current_snapshot = rt.current_snapshot) ∨
       (∃ so, cf.snapshot_out = some so ∧ rtf.current_snapshot = so))) ∧
    (cf.breached = true →
      ∃ wa wb anch, env.loadLastImmutableAnchor wa = (Except.ok anch, wb) ∧
        rtf.current_snapshot = anch) := by
  unfold run_tick at h
  split at h
  · exact absurd h (by simp)
  · rename_i wA rtA ctx0 heq1
    obtain ⟨h1inv, h1bs, h1bf, h1dt, h1cur⟩ := _step1_init_cases env w rt pending dv edt heq1
    split at h
    · rename_i wB rtB cB heqB
      obtain ⟨hbD, hbB, hbS, hbT, hbF⟩ := tickBody_ok_cases env wA rtA ctx0 heqB
      split at h
      · rename_i hbr
        split at h
        · exact absurd h (by simp)
        · rename_i r heqR
          simp only [Except.ok.injEq] at h
          subst h
          have hsafeB : RollbackSafe cB :=
            rollbackSafe_of_step _ (by rw [hbS]; exact h1bs)
          obtain ⟨hrA, hrB, hrC, hrD, hrE, wa, wb, anch, hld, hrt⟩ :=
            _rollback_ok_cases env wB rtB cB hsafeB heqR
          refine ⟨by rw [hrC, hbD, h1dt], ?_, ?_, ?_⟩
          · intro h27
            rw [hrD]
            apply hsafeB
            rw [← hrB]; exact h27
          · intro h0
            exact absurd (h0.symm.trans (hrA.trans hbr)) (by simp)
          · intro _
            exact ⟨wa, wb, anch, hld, by rw [hrt]⟩
      · rename_i hbr
        simp only [Except.ok.injEq, Prod.mk.injEq] at h
        obtain ⟨hw, hrt, hc⟩ := h
        subst hc; subst hrt
        have hbrF : cB.breached = false := by
          rcases hB : cB.breached with _ | _
          · rfl
          · exact absurd hB hbr
        refine ⟨by rw [hbD, h1dt], rollbackSafe_of_step _ (by rw [hbS]; exact h1bs),
          ?_, ?_⟩
        · intro _
          rcases hbF hbrF with ⟨hso, hrfl⟩ | ⟨so, hso, hrfl⟩
          · exact Or.inl ⟨hso, by rw [hrfl, h1cur]⟩
          · exact Or.inr ⟨so, hso, by rw [hrfl]⟩
        · intro h0
          exact absurd (hbrF.symm.trans h0) (by simp)
    · rename_i e wB cB heqB
      obtain ⟨heD, heSafe⟩ := tickBody_error_cases env wA rtA ctx0 h1inv h1bs heqB
      split at h
      · rename_i msg
        dsimp only at h
        split at h
        · exact absurd h (by simp)
        · rename_i r heqR
          simp only [Except.ok.injEq] at h
          subst h
          obtain ⟨hmA, hmB, hmC, hmD⟩ := _mark_breach_fields cB msg
          have hsafeM : RollbackSafe (_mark_breach cB msg) := by
            intro h27
            rw [hmB] at h27
            rw [hmC]
            exact heSafe h27
          obtain ⟨hrA, hrB, hrC, hrD, hrE, wa, wb, anch, hld, hrt⟩ :=
            _rollback_ok_cases env wB rtA (_mark_breach cB msg) hsafeM heqR
          refine ⟨by rw [hrC, hmD, heD, h1dt], ?_, ?_, ?_⟩
          · intro h27
            rw [hrD, hmC]
            apply heSafe
            rw [← hmB, ← hrB]; exact h27
          · intro h0
            exact absurd (h0.symm.trans (hrA.trans hmA)) (by simp)
          · intro _
            exact ⟨wa, wb, anch, hld, by rw [hrt]⟩
      all_goals exact absurd h (by simp)

theorem _step1_init_total (env : Env W) (w : W) (rt : Runtime)
    (pending : List Delta) (dv : Option Views) (edt : Option ℚ)
    {now : ℚ} {w1 : W} {b : Bool} {w2 : W}
    (htn : env.timeNow w = (now, w1))
    (htl : env.timelineHashOk w1 = (Except.ok b, w2)) :
    ∃ rtA ctx0, _step1_init env w rt pending dv edt = Except.ok (w2, rtA, ctx0) := by
  cases b <;>
  · unfold _step1_init
    rw [htn]
    dsimp only
    rw [htl]
    exact ⟨_, _, rfl⟩

/-- Totality of `run_tick` when collaborator failures are confined to
`RuntimeError` during the body and the Anchor Store's own queries
(timeline check and anchor load) do not raise. -/
theorem run_tick_total_re (env : Env W) (w : W) (rt : Runtime)
    (pending : List Delta) (dv : Option Views) (edt : Option ℚ)
    (hTok : ∀ w, ∃ b, (env.timelineHashOk w).1 = Except.ok b)
    (hAok : ∀ w, ∃ s, (env.loadLastImmutableAnchor w).1 = Except.ok s)
    (hIre : ∀ w s d, OkOrRE (env.computeInverseDelta w s d).1)
    (hAre : ∀ w s d, OkOrRE (env.applyDeltaInPlace w s d).1)
    (hVre : ∀ w s, OkOrRE (env.validateState w s).1)
    (hPre : ∀ f wa t q v, env.performerStep = some f → OkOrRE (f wa t q v).1)
    (hSre : ∀ wa t ts, OkOrRE (env.schedulePerformance wa t ts).1) :
    ∃ r, run_tick env w rt pending dv edt = Except.ok r := by
  rcases htn : env.timeNow w with ⟨now, w1⟩
  rcases htl : env.timelineHashOk w1 with ⟨r0, w2⟩
  obtain ⟨b, hb⟩ := hTok w1
  rw [htl] at hb
  simp only at hb
  subst hb
  obtain ⟨rtA, ctx0, h1⟩ := _step1_init_total env w rt pending dv edt htn htl
  obtain ⟨hinv0, hbs0, _, _, _⟩ := _step1_init_cases env w rt pending dv edt h1
  unfold run_tick
  rw [h1]
  dsimp only
  rcases hB : tickBody env w2 rtA ctx0 with ⟨e, wB, cB⟩ | ⟨wB, rtB, cB⟩
  · obtain ⟨m, hm⟩ := tickBody_error_exc env w2 rtA ctx0 hIre hAre hVre hPre hSre hB
    subst hm
    obtain ⟨hD, hSafe⟩ := tickBody_error_cases env w2 rtA ctx0 hinv0 hbs0 hB
    obtain ⟨hmA, hmB, hmC, hmD⟩ := _mark_breach_fields cB m
    have hsafeM : RollbackSafe (_mark_breach cB m) := by
      intro h27
      rw [hmB] at h27
      rw [hmC]
      exact hSafe h27
    obtain ⟨r, hr⟩ := _rollback_total env wB rtA (_mark_breach cB m) hsafeM hTok hAok
    refine ⟨r, ?_⟩
    dsimp only
    rw [hr]
  · obtain ⟨hbD, hbB, hbS, hbT, hbF⟩ := tickBody_ok_cases env w2 rtA ctx0 hB
    by_cases hbr : cB.breached = true
    · have hsafe : RollbackSafe cB := rollbackSafe_of_step _ (by rw [hbS]; exact hbs0)
      obtain ⟨r, hr⟩ := _rollback_total env wB rtB cB hsafe hTok hAok
      refine ⟨r, ?_⟩
      simp only [hbr, if_true, hr]
    · refine ⟨(wB, rtB, cB), ?_⟩
      have hbrF : cB.breached = false := by
        rcases hx : cB.breached with _ | _
        · rfl
        · exact absurd hx hbr
      simp only [hbrF, Bool.false_eq_true, if_false]

/-! ### Ordering corollaries, alert counting, validity characterization -/

theorem sort_key_le_ti {u v : Delta} (h : sort_key u ≤ sort_key v) :
    u.temporal_index ≤ v.temporal_index := by
  unfold sort_key at h
  rcases (Prod.Lex.le_iff _ _).mp h with h0 | ⟨h0, _⟩
  · exact le_of_lt h0
  · exact le_of_eq h0

theorem pySorted_ti_strict (l : List Delta)
    (hd : l.Pairwise fun u v => u.temporal_index ≠ v.temporal_index) :
    (pySorted l).Pairwise fun u v => u.temporal_index < v.temporal_index := by
  have hs := pySorted_sorted l
  have hd2 : (pySorted l).Pairwise fun u v => u.temporal_index ≠ v.temporal_index :=
    ((pySorted_perm l).pairwise_iff (fun hx => Ne.symm hx)).mpr hd
  exact (hs.and hd2).imp fun hx => lt_of_le_of_ne (sort_key_le_ti hx.1) hx.2

theorem pySorted_eq_of_perm (l1 l2 : List Delta) (hp : l1.Perm l2)
    (hd : l1.Pairwise fun u v => u.temporal_index ≠ v.temporal_index) :
    pySorted l1 = pySorted l2 := by
  haveI : IsAntisymm Delta (fun u v => u.temporal_index < v.temporal_index) :=
    ⟨fun _ _ h1 h2 => absurd h2 (not_lt_of_gt h1)⟩
  have hd2 : l2.Pairwise fun u v => u.temporal_index ≠ v.temporal_index :=
    (hp.pairwise_iff (fun hx => Ne.symm hx)).mp hd
  exact List.eq_of_perm_of_sorted
    ((pySorted_perm l1).trans (hp.trans (pySorted_perm l2).symm))
    (pySorted_ti_strict l1 hd) (pySorted_ti_strict l2 hd2)

theorem fence_message_ne_reject (s t : String) :
    ("Temporal fence: " ++ s) ≠ ("Rejected malformed Delta " ++ t) := by
  intro h
  have h2 := congrArg String.data h
  simp [String.data_append] at h2

theorem fenceAlert_ne_rejectAlert (tk tk2 : Int) (ts ts2 : ℚ) (o : Nat) (d : Delta) :
    fenceAlert tk ts o ≠ rejectAlert tk2 ts2 d := by
  intro h
  exact fence_message_ne_reject (toString o ++ " Deltas pushed to next Tick") d.id
    (by simpa [fenceAlert, rejectAlert, String.append_assoc] using congrArg Alert.message h)

theorem fenceAlert_count (m : Nat) (tick : Int) (ts : ℚ) (l : List Delta)
    (hov : l.length > m) :
    (step2Alerts m tick ts l ++ [info11Alert tick ts]).count
      (fenceAlert tick ts (l.length - m)) = 1 := by
  unfold step2Alerts
  rw [if_pos hov]
  rw [List.count_append, List.count_append]
  have h1 : List.count (fenceAlert tick ts (l.length - m))
      [fenceAlert tick ts (l.length - m)] = 1 := by simp
  have h2 : List.count (fenceAlert tick ts (l.length - m))
      ((rejectedOf m l).map (rejectAlert tick ts)) = 0 := by
    rw [List.count_eq_zero]
    intro hmem
    obtain ⟨d, _, hd⟩ := List.mem_map.mp hmem
    exact fenceAlert_ne_rejectAlert tick tick ts ts (l.length - m) d hd.symm
  have h3 : List.count (fenceAlert tick ts (l.length - m)) [info11Alert tick ts] = 0 := by
    rw [List.count_eq_zero]
    intro hmem
    simp [info11Alert, fenceAlert] at hmem
  rw [h1, h2, h3]

theorem _validate_delta_structure_iff (d : Delta) :
    _validate_delta_structure d = false ↔
      (d.id = "" ∨ d.source_id = "" ∨ d.entity_ref = "" ∨
       d.temporal_scope.1 > d.temporal_scope.2 ∨ 64 < d.parent_ids.length) := by
  unfold _validate_delta_structure
  split_ifs with h1 h2 h3
  · exact iff_of_true rfl (by tauto)
  · exact iff_of_true rfl (by tauto)
  · exact iff_of_true rfl (by tauto)
  · refine iff_of_false (by simp) ?_
    push_neg at h1
    rintro (ha | hb | hc | hd2 | he)
    · exact h1.1 ha
    · exact h1.2.1 hb
    · exact h1.2.2 hc
    · exact h2 hd2
    · exact h3 he

theorem rollbackApplyLoop_pure (env : Env W) (app : State → Delta → State)
    (hApp : ∀ w s d, (env.applyDeltaInPlace w s d).1 = Except.ok (app s d)) :
    ∀ (ds : List Delta) (w : W) (s : State),
    ∃ w1, rollbackApplyLoop env w s ds = Except.ok (w1, applyList app s ds) := by
  intro ds
  induction ds with
  | nil => intro w s; exact ⟨w, by simp [rollbackApplyLoop, applyList]⟩
  | cons d ds ih =>
    intro w s
    rcases hap : env.applyDeltaInPlace w s d with ⟨r, wa⟩
    have hr : r = Except.ok (app s d) := by
      have h0 := hApp w s d; rw [hap] at h0; simpa using h0
    subst hr
    obtain ⟨w1, hrec⟩ := ih wa (app s d)
    exact ⟨w1, by simp [rollbackApplyLoop, hap, hrec, applyList]⟩

/-! ### Claim theorems -/

/-- C1 (counterexample): a collaborator failure that is not a
`RuntimeError` — here the Anchor Store's `timeline_hash_ok` raising during
step-1 initialization — propagates out of `run_tick` instead of being
converted into the breach/rollback state machine, so the caller does not
receive a TickContext. -/
theorem c1_counterexample :
    run_tick (pureEnv (Except.error (Exc.otherError "anchor store failure"))
        (Except.ok anchor0) addInv addApp (fun _ => true)) () rtFresh [] none none
      = Except.error (Exc.otherError "anchor store failure", (),
          { max_deltas_per_tick := 1024, tick_counter := 1,
            current_snapshot := anchor0, last_wall_clock_ts := some 0 }) := by
  with_unfolding_all decide

/-- C1 (amended): `run_tick` returns a TickContext — converting every
internal failure into the breach/rollback state machine — provided the
collaborator failures raised during the tick body are `RuntimeError`s and
the Anchor Store's timeline check and anchor load never raise; failures of
other exception classes (or Anchor Store failures during step-1
initialization or rollback) propagate to the caller instead. -/
theorem c1_run_tick_total_for_runtime_errors (env : Env W) (w : W) (rt : Runtime)
    (pending : List Delta) (dv : Option Views) (edt : Option ℚ)
    (hTok : ∀ w, ∃ b, (env.timelineHashOk w).1 = Except.ok b)
    (hAok : ∀ w, ∃ s, (env.loadLastImmutableAnchor w).1 = Except.ok s)
    (hIre : ∀ w s d, OkOrRE (env.computeInverseDelta w s d).1)
    (hAre : ∀ w s d, OkOrRE (env.applyDeltaInPlace w s d).1)
    (hVre : ∀ w s, OkOrRE (env.validateState w s).1)
    (hPre : ∀ f wa t q v, env.performerStep = some f → OkOrRE (f wa t q v).1)
    (hSre : ∀ wa t ts, OkOrRE (env.schedulePerformance wa t ts).1) :
    ∃ r, run_tick env w rt pending dv edt = Except.ok r :=
  run_tick_total_re env w rt pending dv edt hTok hAok hIre hAre hVre hPre hSre

theorem c1_run_tick_total_for_runtime_errors_witness :
    ∃ r, run_tick (pureEnv (Except.ok true) (Except.ok anchor0) addInv addApp
      (fun _ => true)) () rtFresh [mkDelta "d1" "s" "value" 1 1] none (some 1)
      = Except.ok r :=
  c1_run_tick_total_for_runtime_errors
    (pureEnv (Except.ok true) (Except.ok anchor0) addInv addApp (fun _ => true))
    () rtFresh [mkDelta "d1" "s" "value" 1 1] none (some 1)
    (fun _ => ⟨true, rfl⟩) (fun _ => ⟨anchor0, rfl⟩)
    (fun _ s d => Or.inl ⟨addInv s d, rfl⟩)
    (fun _ s d => Or.inl ⟨addApp s d, rfl⟩)
    (fun _ _ => Or.inl ⟨true, rfl⟩)
    (fun _ _ _ _ _ hf => Option.noConfusion hf)
    (fun _ _ _ => Or.inl ⟨(), rfl⟩)

/-- C2 (counterexample): a tick that breaches (here at step 1, with no
output snapshot) still changes `current_snapshot`: slow-path rollback
replaces it with the last immutable anchor, which differs from the
pre-tick snapshot.  So "`current_snapshot` changes iff the tick completed
with `breached = false` and an output snapshot" is false. -/
theorem c2_counterexample :
    (match run_tick (pureEnv (Except.ok false) (Except.ok anchor0) addInv addApp
        (fun _ => true)) () rtDrift [] none none with
     | Except.ok (_, rt1, c) => some (c.breached, c.snapshot_out, rt1.current_snapshot)
     | Except.error _ => none)
      = some (true, none, anchor0) ∧ anchor0 ≠ rtDrift.current_snapshot := by
  with_unfolding_all decide

/-- C2 (amended): on every completed tick, if `breached = false` then
`current_snapshot` is the tick's output snapshot when one was produced and
is unchanged otherwise; if `breached = true`, rollback has set
`current_snapshot` to the Anchor Store's last immutable anchor (which may
differ from the pre-tick value). -/
theorem c2_commit_rule (env : Env W) (w : W) (rt : Runtime)
    (pending : List Delta) (dv : Option Views) (edt : Option ℚ) (anch : Snapshot)
    (hA : ∀ w, (env.loadLastImmutableAnchor w).1 = Except.ok anch)
    (wf : W) (rtf : Runtime) (cf : TickContext)
    (h : run_tick env w rt pending dv edt = Except.ok (wf, rtf, cf)) :
    (cf.breached = false →
      ((cf.snapshot_out = none ∧ rtf.current_snapshot = rt.current_snapshot) ∨
       (∃ so, cf.snapshot_out = some so ∧ rtf.current_snapshot = so))) ∧
    (cf.breached = true → rtf.current_snapshot = anch) := by
  obtain ⟨_, _, hcommit, hroll⟩ := run_tick_ok_cases env w rt pending dv edt h
  refine ⟨hcommit, ?_⟩
  intro hb
  obtain ⟨wa, wb, anch2, hld, hcur⟩ := hroll hb
  have he : anch2 = anch := by
    have h0 := hA wa; rw [hld] at h0; simpa using h0
  rw [hcur, he]

theorem c2_commit_rule_witness :
    ((breach6Ctx rtDrift [mkDelta "add10" "s" "value" 10 10] none (some 1) 0).breached
        = false →
      (((breach6Ctx rtDrift [mkDelta "add10" "s" "value" 10 10] none
          (some 1) 0).snapshot_out = none ∧
        (breach6Rt rtDrift 0 anchor0).current_snapshot = rtDrift.current_snapshot) ∨
       (∃ so, (breach6Ctx rtDrift [mkDelta "add10" "s" "value" 10 10] none
          (some 1) 0).snapshot_out = some so ∧
        (breach6Rt rtDrift 0 anchor0).current_snapshot = so))) ∧
    ((breach6Ctx rtDrift [mkDelta "add10" "s" "value" 10 10] none (some 1) 0).breached
        = true →
      (breach6Rt rtDrift 0 anchor0).current_snapshot = anchor0) :=
  c2_commit_rule
    (pureEnv (Except.ok true) (Except.ok anchor0) addInv addApp (fun _ => false))
    () rtDrift [mkDelta "add10" "s" "value" 10 10] none (some 1) anchor0
    (fun _ => rfl) () (breach6Rt rtDrift 0 anchor0)
    (breach6Ctx rtDrift [mkDelta "add10" "s" "value" 10 10] none (some 1) 0)
    (by with_unfolding_all decide)

/-- C3: on every completed tick that breached, the recorded breach step
lies outside the fast window 2–7 or no inverse deltas were recorded (they
are assigned only after validation succeeds, while every step-6 breach
raises before that assignment); hence `use_fast` is false for any
timeline-check outcome — the fast-path rollback branch is dead code — and
the rollback restored `current_snapshot` to the Anchor Store's last
immutable anchor. -/
theorem c3_fast_path_never_taken (env : Env W) (w : W) (rt : Runtime)
    (pending : List Delta) (dv : Option Views) (edt : Option ℚ) (anch : Snapshot)
    (hA : ∀ w, (env.loadLastImmutableAnchor w).1 = Except.ok anch)
    (wf : W) (rtf : Runtime) (cf : TickContext)
    (h : run_tick env w rt pending dv edt = Except.ok (wf, rtf, cf))
    (hb : cf.breached = true) :
    ((pyOr cf.breach_step (-1) < 2 ∨ 7 < pyOr cf.breach_step (-1)) ∨
      cf.inverse_deltas = []) ∧
    (∀ th, rollbackUseFast th (pyOr cf.breach_step (-1)) cf.inverse_deltas = false) ∧
    rtf.current_snapshot = anch := by
  obtain ⟨_, hsafe, _, hroll⟩ := run_tick_ok_cases env w rt pending dv edt h
  refine ⟨?_, fun th => rollbackUseFast_false cf hsafe th, ?_⟩
  · by_cases h27 : 2 ≤ pyOr cf.breach_step (-1) ∧ pyOr cf.breach_step (-1) ≤ 7
    · exact Or.inr (hsafe h27)
    · left
      rcases not_and_or.mp h27 with h2 | h7
      · exact Or.inl (lt_of_not_le h2)
      · exact Or.inr (lt_of_not_le h7)
  · obtain ⟨wa, wb, anch2, hld, hcur⟩ := hroll hb
    have he : anch2 = anch := by
      have h0 := hA wa; rw [hld] at h0; simpa using h0
    rw [hcur, he]

theorem c3_fast_path_never_taken_witness :
    ((pyOr (breach6Ctx rtDrift [mkDelta "add10" "s" "value" 10 10] none
          (some 1) 0).breach_step (-1) < 2 ∨
       7 < pyOr (breach6Ctx rtDrift [mkDelta "add10" "s" "value" 10 10] none
          (some 1) 0).breach_step (-1)) ∨
      (breach6Ctx rtDrift [mkDelta "add10" "s" "value" 10 10] none
          (some 1) 0).inverse_deltas = []) ∧
    rollbackUseFast true
      (pyOr (breach6Ctx rtDrift [mkDelta "add10" "s" "value" 10 10] none
        (some 1) 0).breach_step (-1))
      (breach6Ctx rtDrift [mkDelta "add10" "s" "value" 10 10] none
        (some 1) 0).inverse_deltas = false ∧
    (breach6Rt rtDrift 0 anchor0).current_snapshot = anchor0 :=
  have h := c3_fast_path_never_taken
    (pureEnv (Except.ok true) (Except.ok anchor0) addInv addApp (fun _ => false))
    () rtDrift [mkDelta "add10" "s" "value" 10 10] none (some 1) anchor0
    (fun _ => rfl) () (breach6Rt rtDrift 0 anchor0)
    (breach6Ctx rtDrift [mkDelta "add10" "s" "value" 10 10] none (some 1) 0)
    (by with_unfolding_all decide) (by with_unfolding_all decide)
  ⟨h.1, h.2.1 true, h.2.2⟩

/-- C5: if the Kernel Contract's `validate_state` returns false after all
accepted deltas are applied, `run_tick` returns a context with
`breached = true` and `breach_step = 6`, and afterward the Runtime's
`current_snapshot` equals the Anchor Store's last immutable anchor,
regardless of the state the in-flight mutation computed. -/
theorem c5_validation_failure_restores_anchor (env : Env W)
    (cinv : State → Delta → Option Delta) (app : State → Delta → State)
    (val : State → Bool) (anch : Snapshot)
    (hI : ∀ w s d, (env.computeInverseDelta w s d).1 = Except.ok (cinv s d))
    (hApp : ∀ w s d, (env.applyDeltaInPlace w s d).1 = Except.ok (app s d))
    (hV : ∀ w s, (env.validateState w s).1 = Except.ok (val s))
    (hT : ∀ w, (env.timelineHashOk w).1 = Except.ok true)
    (hA : ∀ w, (env.loadLastImmutableAnchor w).1 = Except.ok anch)
    (w w1 : W) (now : ℚ) (htn : env.timeNow w = (now, w1))
    (rt : Runtime) (pending : List Delta) (dv : Option Views) (edt : Option ℚ)
    (invs : List Delta)
    (hinv : pureInverses cinv app rt.current_snapshot.zon4d_state
      (pySorted (validKept rt.max_deltas_per_tick pending)) = some invs)
    (hval : val (applyList app rt.current_snapshot.zon4d_state
      (pySorted (validKept rt.max_deltas_per_tick pending))) = false) :
    ∃ wf rtf ctx, run_tick env w rt pending dv edt = Except.ok (wf, rtf, ctx) ∧
      ctx.breached = true ∧ ctx.breach_step = some 6 ∧
      rtf.current_snapshot = anch := by
  obtain ⟨wf, h⟩ := run_tick_pure_valfail env cinv app val anch hI hApp hV hT hA
    w w1 now htn rt pending dv edt invs hinv hval
  exact ⟨wf, breach6Rt rt now anch, breach6Ctx rt pending dv edt now, h, rfl, rfl, rfl⟩

theorem c5_validation_failure_restores_anchor_witness :
    ∃ wf rtf ctx,
      run_tick (pureEnv (Except.ok true) (Except.ok anchor0) addInv addApp
          (fun _ => false)) () rtDrift [mkDelta "add10" "s" "value" 10 10]
          none (some 1)
        = Except.ok (wf, rtf, ctx) ∧
      ctx.breached = true ∧ ctx.breach_step = some 6 ∧
      rtf.current_snapshot = anchor0 :=
  c5_validation_failure_restores_anchor
    (pureEnv (Except.ok true) (Except.ok anchor0) addInv addApp (fun _ => false))
    addInv addApp (fun _ => false) anchor0
    (fun _ _ _ => rfl) (fun _ _ _ => rfl) (fun _ _ => rfl) (fun _ => rfl) (fun _ => rfl)
    () () 0 rfl rtDrift [mkDelta "add10" "s" "value" 10 10] none (some 1)
    [⟨"inv_add10", "s", "value", 10, (0, 0), [], -10, []⟩]
    (by with_unfolding_all decide) rfl

/-- C10: on every completed call, the returned context's `delta_time` is
the step-1 computation `dtSpec`: an explicitly supplied value is clamped
to `max d 0` (a negative override is silently zeroed), the result is
never negative, and with the override omitted it is exactly 0 on a first
call (no previous wall-clock stamp). -/
theorem c10_delta_time_clamped (env : Env W) (w : W) (rt : Runtime)
    (pending : List Delta) (dv : Option Views) (edt : Option ℚ)
    (wf : W) (rtf : Runtime) (cf : TickContext)
    (h : run_tick env w rt pending dv edt = Except.ok (wf, rtf, cf)) :
    cf.delta_time = dtSpec edt rt.last_wall_clock_ts (env.timeNow w).1 ∧
    (∀ d, edt = some d → cf.delta_time = max d 0) ∧
    0 ≤ cf.delta_time ∧
    (edt = none → rt.last_wall_clock_ts = none → cf.delta_time = 0) := by
  obtain ⟨hdt, _, _, _⟩ := run_tick_ok_cases env w rt pending dv edt h
  refine ⟨hdt, ?_, ?_, ?_⟩
  · intro d hd
    rw [hdt, hd]
    rfl
  · rw [hdt]
    rcases edt with _ | d
    · rcases hlast : rt.last_wall_clock_ts with _ | prev
      · exact le_refl 0
      · exact le_max_right _ 0
    · exact le_max_right d 0
  · intro h1 h2
    rw [hdt, h1, h2]
    rfl

theorem c10_delta_time_clamped_witness :
    (happyCtx addApp (fun _ _ => []) rtFresh [] none (some (-5)) 0 []).delta_time
        = dtSpec (some (-5)) rtFresh.last_wall_clock_ts 0 ∧
    (∀ d, (some (-5) : Option ℚ) = some d →
      (happyCtx addApp (fun _ _ => []) rtFresh [] none (some (-5)) 0 []).delta_time
        = max d 0) ∧
    0 ≤ (happyCtx addApp (fun _ _ => []) rtFresh [] none (some (-5)) 0 []).delta_time ∧
    ((some (-5) : Option ℚ) = none → rtFresh.last_wall_clock_ts = none →
      (happyCtx addApp (fun _ _ => []) rtFresh [] none (some (-5)) 0 []).delta_time
        = 0) :=
  c10_delta_time_clamped
    (pureEnv (Except.ok true) (Except.ok anchor0) addInv addApp (fun _ => true))
    () rtFresh [] none (some (-5)) ()
    (happyRt addApp rtFresh [] 0)
    (happyCtx addApp (fun _ _ => []) rtFresh [] none (some (-5)) 0 [])
    (by with_unfolding_all decide)

/-- C4: the rollback decision rule.  `use_fast` holds exactly when the
Anchor Store's fresh timeline check passes, the recorded breach step is
within 2–7, and at least one inverse delta was recorded.  When it fails,
`_rollback` restores the last immutable anchor (slow path).  When it
holds, the recorded inverse deltas are applied in reverse order to a copy
of the current snapshot's state and re-validated: a failed re-validation
abandons the fast path and restores the anchor, a successful one installs
the compensated state into the current snapshot. -/
theorem c4_rollback_decision_rule (env : Env W)
    (app : State → Delta → State) (val : State → Bool) (th : Bool) (anch : Snapshot)
    (hApp : ∀ w s d, (env.applyDeltaInPlace w s d).1 = Except.ok (app s d))
    (hV : ∀ w s, (env.validateState w s).1 = Except.ok (val s))
    (hTL : ∀ w, (env.timelineHashOk w).1 = Except.ok th)
    (hA : ∀ w, (env.loadLastImmutableAnchor w).1 = Except.ok anch)
    (w : W) (rt : Runtime) (ctx : TickContext) :
    (rollbackUseFast th (pyOr ctx.breach_step (-1)) ctx.inverse_deltas = true ↔
      (th = true ∧ 2 ≤ pyOr ctx.breach_step (-1) ∧ pyOr ctx.breach_step (-1) ≤ 7 ∧
        ctx.inverse_deltas ≠ [])) ∧
    (rollbackUseFast th (pyOr ctx.breach_step (-1)) ctx.inverse_deltas = false →
      ∃ w1 c1, _rollback env w rt ctx =
        Except.ok (w1, { rt with current_snapshot := anch }, c1)) ∧
    (rollbackUseFast th (pyOr ctx.breach_step (-1)) ctx.inverse_deltas = true →
      val (applyList app rt.current_snapshot.zon4d_state
        ctx.inverse_deltas.reverse) = false →
      ∃ w1 c1, _rollback env w rt ctx =
        Except.ok (w1, { rt with current_snapshot := anch }, c1)) ∧
    (rollbackUseFast th (pyOr ctx.breach_step (-1)) ctx.inverse_deltas = true →
      val (applyList app rt.current_snapshot.zon4d_state
        ctx.inverse_deltas.reverse) = true →
      ∃ w1 c1, _rollback env w rt ctx =
        Except.ok (w1, { rt with current_snapshot :=
          { rt.current_snapshot with zon4d_state := applyList app rt.current_snapshot.zon4d_state ctx.inverse_deltas.reverse } }, c1)) := by
  rcases htl : env.timelineHashOk w with ⟨r0, wa⟩
  have hr0 : r0 = Except.ok th := by
    have h0 := hTL w; rw [htl] at h0; simpa using h0
  subst hr0
  have hmain : ∀ b : Bool,
      rollbackUseFast th (pyOr ctx.breach_step (-1)) ctx.inverse_deltas = b →
      _rollback env w rt ctx =
        (if b then
          match rollbackApplyLoop env wa rt.current_snapshot.zon4d_state
              ({ ctx with timeline_hash_ok := th } : TickContext).inverse_deltas.reverse with
          | Except.error (e, w2) =>
            Except.error (e, w2, rt, { ctx with timeline_hash_ok := th })
          | Except.ok (w2, state) =>
            match env.validateState w2 state with
            | (Except.error e, w3) =>
              Except.error (e, w3, rt, { ctx with timeline_hash_ok := th })
            | (Except.ok false, w3) =>
              slowPath env w3 rt
                (_alert { ctx with timeline_hash_ok := th } "CRITICAL"
                  (pyOr ctx.breach_step (-1))
                  "Fast-path rollback validation failed; falling back to anchor restore")
                (pyOr ctx.breach_step (-1))
            | (Except.ok true, w3) =>
              Except.ok (w3,
                { rt with current_snapshot :=
                  { id := rt.current_snapshot.id
                    tick := rt.current_snapshot.tick
                    zon4d_state := state
                    hash32 := rt.current_snapshot.hash32
                    anchor_type := rt.current_snapshot.anchor_type } },
                _alert { ctx with timeline_hash_ok := th } "INFO"
                  (pyOr ctx.breach_step (-1))
                  "Fast-path rollback applied via inverse Deltas")
        else slowPath env wa rt { ctx with timeline_hash_ok := th }
          (pyOr ctx.breach_step (-1))) := by
    intro b hb
    unfold _rollback
    rw [htl]
    dsimp only
    rw [hb]
  refine ⟨?_, ?_, ?_, ?_⟩
  · unfold rollbackUseFast
    constructor
    · intro hx
      simp only [Bool.and_eq_true, decide_eq_true_eq] at hx
      refine ⟨hx.1.1, hx.1.2.1, hx.1.2.2, ?_⟩
      intro hnil
      rw [hnil] at hx
      simp at hx
    · rintro ⟨hth, h2, h7, hne⟩
      subst hth
      simp only [Bool.true_and, Bool.and_eq_true, decide_eq_true_eq]
      exact ⟨⟨h2, h7⟩, List.length_pos.mpr hne⟩
  · intro hb
    rw [hmain false hb]
    simp only [if_false, Bool.false_eq_true]
    rcases hld : env.loadLastImmutableAnchor wa with ⟨ra, wb⟩
    have hra : ra = Except.ok anch := by
      have h0 := hA wa; rw [hld] at h0; simpa using h0
    subst hra
    exact ⟨wb, _, by rw [slowPath_ok env wa rt _ _ anch wb hld]⟩
  · intro hb hvf
    rw [hmain true hb]
    dsimp only
    obtain ⟨w2, hloop⟩ := rollbackApplyLoop_pure env app hApp
      ctx.inverse_deltas.reverse wa rt.current_snapshot.zon4d_state
    rw [hloop]
    dsimp only
    rcases hvs : env.validateState w2
        (applyList app rt.current_snapshot.zon4d_state ctx.inverse_deltas.reverse)
      with ⟨rv, w3⟩
    have hrv : rv = Except.ok false := by
      have h0 := hV w2 (applyList app rt.current_snapshot.zon4d_state
        ctx.inverse_deltas.reverse)
      rw [hvs] at h0
      simp only at h0
      rw [h0, hvf]
    subst hrv
    dsimp only
    rcases hld : env.loadLastImmutableAnchor w3 with ⟨ra, wb⟩
    have hra : ra = Except.ok anch := by
      have h0 := hA w3; rw [hld] at h0; simpa using h0
    subst hra
    exact ⟨wb, _, by rw [slowPath_ok env w3 rt _ _ anch wb hld]; rfl⟩
  · intro hb hvt
    rw [hmain true hb]
    dsimp only
    obtain ⟨w2, hloop⟩ := rollbackApplyLoop_pure env app hApp
      ctx.inverse_deltas.reverse wa rt.current_snapshot.zon4d_state
    rw [hloop]
    dsimp only
    rcases hvs : env.validateState w2
        (applyList app rt.current_snapshot.zon4d_state ctx.inverse_deltas.reverse)
      with ⟨rv, w3⟩
    have hrv : rv = Except.ok true := by
      have h0 := hV w2 (applyList app rt.current_snapshot.zon4d_state
        ctx.inverse_deltas.reverse)
      rw [hvs] at h0
      simp only at h0
      rw [h0, hvt]
    subst hrv
    exact ⟨w3, _, rfl⟩

theorem c4_rollback_decision_rule_witness :
    ∃ w1 c1,
      _rollback (pureEnv (Except.ok true) (Except.ok anchor0) addInv addApp
          (fun _ => true)) () rtVal15 ctxBreach3 =
        Except.ok (w1, { rtVal15 with current_snapshot :=
          { rtVal15.current_snapshot with zon4d_state := applyList addApp rtVal15.current_snapshot.zon4d_state ctxBreach3.inverse_deltas.reverse } }, c1) :=
  (c4_rollback_decision_rule
      (pureEnv (Except.ok true) (Except.ok anchor0) addInv addApp (fun _ => true))
      addApp (fun _ => true) true anchor0
      (fun _ _ _ => rfl) (fun _ _ => rfl) (fun _ => rfl) (fun _ => rfl)
      () rtVal15 ctxBreach3).2.2.2
    (by with_unfolding_all decide) rfl

/-- C6: inverse bookkeeping on an unbreached mutation.  Over a pure
kernel, whenever step 6 completes (every inverse computation succeeds and
the post-state validates), the recorded inverse list has exactly the
length of the accepted list, `inverse_deltas[i]` is the kernel's computed
inverse for `accepted[i]` against the state just before `accepted[i]` was
applied, and — assuming the kernel's inverses are correct compensations —
applying the inverses in reverse order to the output state reconstructs
the input state. -/
theorem c6_inverse_bookkeeping (env : Env W)
    (cinv : State → Delta → Option Delta) (app : State → Delta → State)
    (val : State → Bool) (gen : State → Int → Views)
    (hI : ∀ w s d, (env.computeInverseDelta w s d).1 = Except.ok (cinv s d))
    (hApp : ∀ w s d, (env.applyDeltaInPlace w s d).1 = Except.ok (app s d))
    (hV : ∀ w s, (env.validateState w s).1 = Except.ok (val s))
    (hG : ∀ w s t, (env.generateDomainViews w s t).1 = Except.ok (gen s t))
    (hP : env.performerStep = none)
    (hT : ∀ w, (env.timelineHashOk w).1 = Except.ok true)
    (w w1 : W) (now : ℚ) (htn : env.timeNow w = (now, w1))
    (rt : Runtime) (pending : List Delta) (dv : Option Views) (edt : Option ℚ)
    (invs : List Delta)
    (hinv : pureInverses cinv app rt.current_snapshot.zon4d_state
      (pySorted (validKept rt.max_deltas_per_tick pending)) = some invs)
    (hval : val (applyList app rt.current_snapshot.zon4d_state
      (pySorted (validKept rt.max_deltas_per_tick pending))) = true)
    (hcomp : ∀ s d i, cinv s d = some i → app (app s d) i = s) :
    (∃ wf, run_tick env w rt pending dv edt =
      Except.ok (wf, happyRt app rt pending now,
        happyCtx app gen rt pending dv edt now invs)) ∧
    invs.length = (pySorted (validKept rt.max_deltas_per_tick pending)).length ∧
    (∀ i (h1 : i < invs.length)
        (h2 : i < (pySorted (validKept rt.max_deltas_per_tick pending)).length),
      some (invs.get ⟨i, h1⟩) =
        cinv (applyList app rt.current_snapshot.zon4d_state
          ((pySorted (validKept rt.max_deltas_per_tick pending)).take i))
          ((pySorted (validKept rt.max_deltas_per_tick pending)).get ⟨i, h2⟩)) ∧
    applyList app (happySnap app rt pending).zon4d_state invs.reverse =
      rt.current_snapshot.zon4d_state := by
  refine ⟨run_tick_pure_ok env cinv app val gen hI hApp hV hG hP hT w w1 now htn
      rt pending dv edt invs hinv hval,
    pureInverses_length hinv,
    fun i h1 h2 => pureInverses_get hinv i h1 h2, ?_⟩
  have hrt := pureInverses_roundtrip hcomp hinv
  simpa [happySnap] using hrt

theorem c6_inverse_bookkeeping_witness :
    (∃ wf,
      run_tick (pureEnv (Except.ok true) (Except.ok anchor0) selfInv revApp
          (fun _ => true)) () rtFresh
          [mkDelta "b" "s" "value" 10 1, mkDelta "a" "s" "value" 5 2] none (some 1)
        = Except.ok (wf,
            happyRt revApp rtFresh
              [mkDelta "b" "s" "value" 10 1, mkDelta "a" "s" "value" 5 2] 0,
            happyCtx revApp (fun _ _ => []) rtFresh
              [mkDelta "b" "s" "value" 10 1, mkDelta "a" "s" "value" 5 2]
              none (some 1) 0
              (pySorted (validKept rtFresh.max_deltas_per_tick
                [mkDelta "b" "s" "value" 10 1, mkDelta "a" "s" "value" 5 2])))) ∧
    applyList revApp
      (happySnap revApp rtFresh
        [mkDelta "b" "s" "value" 10 1, mkDelta "a" "s" "value" 5 2]).zon4d_state
      (pySorted (validKept rtFresh.max_deltas_per_tick
        [mkDelta "b" "s" "value" 10 1, mkDelta "a" "s" "value" 5 2])).reverse =
      rtFresh.current_snapshot.zon4d_state := by
  have h := c6_inverse_bookkeeping
    (pureEnv (Except.ok true) (Except.ok anchor0) selfInv revApp (fun _ => true))
    selfInv revApp (fun _ => true) (fun _ _ => [])
    (fun _ _ _ => rfl) (fun _ _ _ => rfl) (fun _ _ => rfl) (fun _ _ _ => rfl)
    rfl (fun _ => rfl) () () 0 rfl rtFresh
    [mkDelta "b" "s" "value" 10 1, mkDelta "a" "s" "value" 5 2] none (some 1)
    (pySorted (validKept rtFresh.max_deltas_per_tick
      [mkDelta "b" "s" "value" 10 1, mkDelta "a" "s" "value" 5 2]))
    (by with_unfolding_all decide) rfl
    (fun s d i h => by
      simp only [selfInv, Option.some.injEq] at h
      subst h
      simp [revApp])
  exact ⟨h.1, h.2.2.2⟩

/-- C7 (counterexample): two submitted deltas with distinct
`temporal_index` values (2e-7 and 1e-7) are both normalized to
`temporal_index = 0` by the 6-decimal rounding of `_normalized_delta`, so
`run_tick` completes unbreached with accepted temporal indices `[0, 0]` —
not a strictly ascending sequence. -/
theorem c7_counterexample :
    ((2 : ℚ)/10000000 ≠ (1 : ℚ)/10000000) ∧
    (match run_tick (pureEnv (Except.ok true) (Except.ok anchor0) addInv addApp
        (fun _ => true)) () rtFresh
        [mkDelta "b" "s" "value" (2/10000000) 1, mkDelta "a" "s" "value" (1/10000000) 2]
        none none with
     | Except.ok (_, _, c) =>
       some (c.breached, c.deltas_accepted.map Delta.temporal_index)
     | Except.error _ => none)
      = some (false, [0, 0]) ∧
    ¬ ([(0 : ℚ), 0].Pairwise fun a b => a < b) := by
  with_unfolding_all decide

/-- C7 (amended): on a fully successful tick the accepted sequence is
exactly the structurally valid survivors of the fence, normalized and
stably sorted by ascending `(temporal_index, len(parent_ids), source_id,
id)`; when the tick is not fenced and the NORMALIZED temporal indices are
pairwise distinct, the accepted order is strictly ascending in
`temporal_index` and is independent of the order of submission. -/
theorem c7_ordering (env : Env W)
    (cinv : State → Delta → Option Delta) (app : State → Delta → State)
    (val : State → Bool) (gen : State → Int → Views)
    (hI : ∀ w s d, (env.computeInverseDelta w s d).1 = Except.ok (cinv s d))
    (hApp : ∀ w s d, (env.applyDeltaInPlace w s d).1 = Except.ok (app s d))
    (hV : ∀ w s, (env.validateState w s).1 = Except.ok (val s))
    (hG : ∀ w s t, (env.generateDomainViews w s t).1 = Except.ok (gen s t))
    (hP : env.performerStep = none)
    (hT : ∀ w, (env.timelineHashOk w).1 = Except.ok true)
    (w w1 : W) (now : ℚ) (htn : env.timeNow w = (now, w1))
    (rt : Runtime) (pending : List Delta) (dv : Option Views) (edt : Option ℚ)
    (invs : List Delta)
    (hinv : pureInverses cinv app rt.current_snapshot.zon4d_state
      (pySorted (validKept rt.max_deltas_per_tick pending)) = some invs)
    (hval : val (applyList app rt.current_snapshot.zon4d_state
      (pySorted (validKept rt.max_deltas_per_tick pending))) = true)
    (pending2 : List Delta) (hperm : pending.Perm pending2)
    (hlen : pending.length ≤ rt.max_deltas_per_tick)
    (hdist : (validKept rt.max_deltas_per_tick pending).Pairwise
      fun u v => u.temporal_index ≠ v.temporal_index) :
    (∃ wf, run_tick env w rt pending dv edt =
      Except.ok (wf, happyRt app rt pending now,
        happyCtx app gen rt pending dv edt now invs)) ∧
    (happyCtx app gen rt pending dv edt now invs).deltas_accepted =
      pySorted (validKept rt.max_deltas_per_tick pending) ∧
    (pySorted (validKept rt.max_deltas_per_tick pending)).Pairwise
      (fun u v => sort_key u ≤ sort_key v) ∧
    (pySorted (validKept rt.max_deltas_per_tick pending)).Pairwise
      (fun u v => u.temporal_index < v.temporal_index) ∧
    pySorted (validKept rt.max_deltas_per_tick pending2) =
      pySorted (validKept rt.max_deltas_per_tick pending) := by
  refine ⟨run_tick_pure_ok env cinv app val gen hI hApp hV hG hP hT w w1 now htn
      rt pending dv edt invs hinv hval, rfl, pySorted_sorted _,
    pySorted_ti_strict _ hdist, ?_⟩
  have hk1 : keptOf rt.max_deltas_per_tick pending = pending := by
    unfold keptOf
    rw [if_neg (by omega)]
  have hk2 : keptOf rt.max_deltas_per_tick pending2 = pending2 := by
    unfold keptOf
    rw [if_neg (by rw [← hperm.length_eq]; omega)]
  have hp : (validKept rt.max_deltas_per_tick pending).Perm
      (validKept rt.max_deltas_per_tick pending2) := by
    unfold validKept
    rw [hk1, hk2]
    exact (hperm.filter _).map _
  exact (pySorted_eq_of_perm _ _ hp hdist).symm

theorem c7_ordering_witness :
    (∃ wf,
      run_tick (pureEnv (Except.ok true) (Except.ok anchor0) addInv addApp
          (fun _ => true)) () rtFresh
          [mkDelta "b" "s" "value" 10 1, mkDelta "a" "s" "value" 5 2] none none
        = Except.ok (wf,
            happyRt addApp rtFresh
              [mkDelta "b" "s" "value" 10 1, mkDelta "a" "s" "value" 5 2] 0,
            happyCtx addApp (fun _ _ => []) rtFresh
              [mkDelta "b" "s" "value" 10 1, mkDelta "a" "s" "value" 5 2] none none 0
              [⟨"inv_a", "s", "value", 5, (0, 0), [], -2, []⟩,
               ⟨"inv_b", "s", "value", 10, (0, 0), [], -1, []⟩])) ∧
    (pySorted (validKept rtFresh.max_deltas_per_tick
        [mkDelta "b" "s" "value" 10 1, mkDelta "a" "s" "value" 5 2])).Pairwise
      (fun u v => u.temporal_index < v.temporal_index) ∧
    pySorted (validKept rtFresh.max_deltas_per_tick
        [mkDelta "a" "s" "value" 5 2, mkDelta "b" "s" "value" 10 1]) =
      pySorted (validKept rtFresh.max_deltas_per_tick
        [mkDelta "b" "s" "value" 10 1, mkDelta "a" "s" "value" 5 2]) := by
  have h := c7_ordering
    (pureEnv (Except.ok true) (Except.ok anchor0) addInv addApp (fun _ => true))
    addInv addApp (fun _ => true) (fun _ _ => [])
    (fun _ _ _ => rfl) (fun _ _ _ => rfl) (fun _ _ => rfl) (fun _ _ _ => rfl)
    rfl (fun _ => rfl) () () 0 rfl rtFresh
    [mkDelta "b" "s" "value" 10 1, mkDelta "a" "s" "value" 5 2] none none
    [⟨"inv_a", "s", "value", 5, (0, 0), [], -2, []⟩,
     ⟨"inv_b", "s", "value", 10, (0, 0), [], -1, []⟩]
    (by with_unfolding_all decide) rfl
    [mkDelta "a" "s" "value" 5 2, mkDelta "b" "s" "value" 10 1]
    (by with_unfolding_all decide) (by with_unfolding_all decide)
    (by with_unfolding_all decide)
  exact ⟨h.1, h.2.2.2⟩

/-- C8: temporal fencing.  On a fully successful tick, if the pending
count exceeds `max_deltas_per_tick` then exactly the first
`max_deltas_per_tick` pending deltas survive the fence, the context is
fenced, exactly one WARNING alert records the overflow count, the tick is
not a failure (breached = false), and if every pending delta is
structurally valid exactly `max_deltas_per_tick` are accepted; if the
count does not exceed the limit, `fenced` stays false, nothing is dropped
by the fence, and accepted plus rejected exhaust the pending deltas. -/
theorem c8_fencing (env : Env W)
    (cinv : State → Delta → Option Delta) (app : State → Delta → State)
    (val : State → Bool) (gen : State → Int → Views)
    (hI : ∀ w s d, (env.computeInverseDelta w s d).1 = Except.ok (cinv s d))
    (hApp : ∀ w s d, (env.applyDeltaInPlace w s d).1 = Except.ok (app s d))
    (hV : ∀ w s, (env.validateState w s).1 = Except.ok (val s))
    (hG : ∀ w s t, (env.generateDomainViews w s t).1 = Except.ok (gen s t))
    (hP : env.performerStep = none)
    (hT : ∀ w, (env.timelineHashOk w).1 = Except.ok true)
    (w w1 : W) (now : ℚ) (htn : env.timeNow w = (now, w1))
    (rt : Runtime) (pending : List Delta) (dv : Option Views) (edt : Option ℚ)
    (invs : List Delta)
    (hinv : pureInverses cinv app rt.current_snapshot.zon4d_state
      (pySorted (validKept rt.max_deltas_per_tick pending)) = some invs)
    (hval : val (applyList app rt.current_snapshot.zon4d_state
      (pySorted (validKept rt.max_deltas_per_tick pending))) = true) :
    (∃ wf, run_tick env w rt pending dv edt =
      Except.ok (wf, happyRt app rt pending now,
        happyCtx app gen rt pending dv edt now invs)) ∧
    (happyCtx app gen rt pending dv edt now invs).breached = false ∧
    (pending.length > rt.max_deltas_per_tick →
      keptOf rt.max_deltas_per_tick pending = pending.take rt.max_deltas_per_tick ∧
      (happyCtx app gen rt pending dv edt now invs).fenced = true ∧
      (happyCtx app gen rt pending dv edt now invs).alerts.count
        (fenceAlert (rt.tick_counter + 1) now
          (pending.length - rt.max_deltas_per_tick)) = 1 ∧
      ((∀ d ∈ pending, _validate_delta_structure d = true) →
        (happyCtx app gen rt pending dv edt now invs).deltas_accepted.length =
          rt.max_deltas_per_tick)) ∧
    (pending.length ≤ rt.max_deltas_per_tick →
      (happyCtx app gen rt pending dv edt now invs).fenced = false ∧
      keptOf rt.max_deltas_per_tick pending = pending ∧
      (happyCtx app gen rt pending dv edt now invs).deltas_accepted.length +
        (happyCtx app gen rt pending dv edt now invs).deltas_rejected.length =
        pending.length) := by
  refine ⟨run_tick_pure_ok env cinv app val gen hI hApp hV hG hP hT w w1 now htn
      rt pending dv edt invs hinv hval, rfl, ?_, ?_⟩
  · intro hov
    refine ⟨by unfold keptOf; rw [if_pos hov], by simp [happyCtx, hov],
      ?_, ?_⟩
    · simpa [happyCtx] using
        fenceAlert_count rt.max_deltas_per_tick (rt.tick_counter + 1) now pending hov
    · intro hall
      have hlen1 : (happyCtx app gen rt pending dv edt now invs).deltas_accepted.length
          = (validKept rt.max_deltas_per_tick pending).length :=
        (pySorted_perm _).length_eq
      rw [hlen1]
      unfold validKept
      unfold keptOf
      rw [if_pos hov]
      rw [List.filter_eq_self.mpr
        (fun d hd => hall d (List.take_subset _ _ hd))]
      rw [List.length_map, List.length_take]
      omega
  · intro hle
    have hk : keptOf rt.max_deltas_per_tick pending = pending := by
      unfold keptOf
      rw [if_neg (by omega)]
    refine ⟨by simp [happyCtx]; omega, hk, ?_⟩
    have hlen1 : (happyCtx app gen rt pending dv edt now invs).deltas_accepted.length
        = (validKept rt.max_deltas_per_tick pending).length :=
      (pySorted_perm _).length_eq
    rw [hlen1]
    have hlen2 : (happyCtx app gen rt pending dv edt now invs).deltas_rejected.length
        = (rejectedOf rt.max_deltas_per_tick pending).length := rfl
    rw [hlen2]
    unfold validKept rejectedOf
    rw [hk, List.length_map]
    exact (List.length_eq_length_filter_add _).symm

theorem c8_fencing_witness :
    (∃ wf,
      run_tick (pureEnv (Except.ok true) (Except.ok anchor0) addInv addApp
          (fun _ => true)) () rtMax3
          [mkDelta "d1" "s" "value" 1 1, mkDelta "d2" "s" "value" 2 1,
           mkDelta "d3" "s" "value" 3 1, mkDelta "d4" "s" "value" 4 1,
           mkDelta "d5" "s" "value" 5 1, mkDelta "d6" "s" "value" 6 1,
           mkDelta "d7" "s" "value" 7 1, mkDelta "d8" "s" "value" 8 1,
           mkDelta "d9" "s" "value" 9 1, mkDelta "dA" "s" "value" 10 1] none none
        = Except.ok (wf,
            happyRt addApp rtMax3
              [mkDelta "d1" "s" "value" 1 1, mkDelta "d2" "s" "value" 2 1,
               mkDelta "d3" "s" "value" 3 1, mkDelta "d4" "s" "value" 4 1,
               mkDelta "d5" "s" "value" 5 1, mkDelta "d6" "s" "value" 6 1,
               mkDelta "d7" "s" "value" 7 1, mkDelta "d8" "s" "value" 8 1,
               mkDelta "d9" "s" "value" 9 1, mkDelta "dA" "s" "value" 10 1] 0,
            happyCtx addApp (fun _ _ => []) rtMax3
              [mkDelta "d1" "s" "value" 1 1, mkDelta "d2" "s" "value" 2 1,
               mkDelta "d3" "s" "value" 3 1, mkDelta "d4" "s" "value" 4 1,
               mkDelta "d5" "s" "value" 5 1, mkDelta "d6" "s" "value" 6 1,
               mkDelta "d7" "s" "value" 7 1, mkDelta "d8" "s" "value" 8 1,
               mkDelta "d9" "s" "value" 9 1, mkDelta "dA" "s" "value" 10 1] none none 0
              [⟨"inv_d1", "s", "value", 1, (0, 0), [], -1, []⟩,
               ⟨"inv_d2", "s", "value", 2, (0, 0), [], -1, []⟩,
               ⟨"inv_d3", "s", "value", 3, (0, 0), [], -1, []⟩])) ∧
    (happyCtx addApp (fun _ _ => []) rtMax3
        [mkDelta "d1" "s" "value" 1 1, mkDelta "d2" "s" "value" 2 1,
         mkDelta "d3" "s" "value" 3 1, mkDelta "d4" "s" "value" 4 1,
         mkDelta "d5" "s" "value" 5 1, mkDelta "d6" "s" "value" 6 1,
         mkDelta "d7" "s" "value" 7 1, mkDelta "d8" "s" "value" 8 1,
         mkDelta "d9" "s" "value" 9 1, mkDelta "dA" "s" "value" 10 1] none none 0
        [⟨"inv_d1", "s", "value", 1, (0, 0), [], -1, []⟩,
         ⟨"inv_d2", "s", "value", 2, (0, 0), [], -1, []⟩,
         ⟨"inv_d3", "s", "value", 3, (0, 0), [], -1, []⟩]).fenced = true ∧
    (happyCtx addApp (fun _ _ => []) rtMax3
        [mkDelta "d1" "s" "value" 1 1, mkDelta "d2" "s" "value" 2 1,
         mkDelta "d3" "s" "value" 3 1, mkDelta "d4" "s" "value" 4 1,
         mkDelta "d5" "s" "value" 5 1, mkDelta "d6" "s" "value" 6 1,
         mkDelta "d7" "s" "value" 7 1, mkDelta "d8" "s" "value" 8 1,
         mkDelta "d9" "s" "value" 9 1, mkDelta "dA" "s" "value" 10 1] none none 0
        [⟨"inv_d1", "s", "value", 1, (0, 0), [], -1, []⟩,
         ⟨"inv_d2", "s", "value", 2, (0, 0), [], -1, []⟩,
         ⟨"inv_d3", "s", "value", 3, (0, 0), [], -1, []⟩]).alerts.count
      (fenceAlert 1 0 7) = 1 ∧
    (happyCtx addApp (fun _ _ => []) rtMax3
        [mkDelta "d1" "s" "value" 1 1, mkDelta "d2" "s" "value" 2 1,
         mkDelta "d3" "s" "value" 3 1, mkDelta "d4" "s" "value" 4 1,
         mkDelta "d5" "s" "value" 5 1, mkDelta "d6" "s" "value" 6 1,
         mkDelta "d7" "s" "value" 7 1, mkDelta "d8" "s" "value" 8 1,
         mkDelta "d9" "s" "value" 9 1, mkDelta "dA" "s" "value" 10 1] none none 0
        [⟨"inv_d1", "s", "value", 1, (0, 0), [], -1, []⟩,
         ⟨"inv_d2", "s", "value", 2, (0, 0), [], -1, []⟩,
         ⟨"inv_d3", "s", "value", 3, (0, 0), [], -1, []⟩]).deltas_accepted.length
      = 3 := by
  have h := c8_fencing
    (pureEnv (Except.ok true) (Except.ok anchor0) addInv addApp (fun _ => true))
    addInv addApp (fun _ => true) (fun _ _ => [])
    (fun _ _ _ => rfl) (fun _ _ _ => rfl) (fun _ _ => rfl) (fun _ _ _ => rfl)
    rfl (fun _ => rfl) () () 0 rfl rtMax3
    [mkDelta "d1" "s" "value" 1 1, mkDelta "d2" "s" "value" 2 1,
     mkDelta "d3" "s" "value" 3 1, mkDelta "d4" "s" "value" 4 1,
     mkDelta "d5" "s" "value" 5 1, mkDelta "d6" "s" "value" 6 1,
     mkDelta "d7" "s" "value" 7 1, mkDelta "d8" "s" "value" 8 1,
     mkDelta "d9" "s" "value" 9 1, mkDelta "dA" "s" "value" 10 1] none none
    [⟨"inv_d1", "s", "value", 1, (0, 0), [], -1, []⟩,
     ⟨"inv_d2", "s", "value", 2, (0, 0), [], -1, []⟩,
     ⟨"inv_d3", "s", "value", 3, (0, 0), [], -1, []⟩]
    (by with_unfolding_all decide) rfl
  obtain ⟨h1, _, hov, _⟩ := h
  have hx := hov (by with_unfolding_all decide)
  exact ⟨h1, hx.2.1, hx.2.2.1, hx.2.2.2 (by with_unfolding_all decide)⟩

/-- C9: structural validation.  On a fully successful tick the rejected
queue is exactly the fence survivors failing structural validation; a
fence survivor is rejected iff its id, source_id, or entity_ref is empty,
its temporal scope start exceeds its end, or it has more than 64 parents;
every rejected delta has a WARNING alert recorded; the tick continues
(breached = false); and the ordered deltas are exactly the normalized
valid survivors (as a permutation, before sorting). -/
theorem c9_structural_validation (env : Env W)
    (cinv : State → Delta → Option Delta) (app : State → Delta → State)
    (val : State → Bool) (gen : State → Int → Views)
    (hI : ∀ w s d, (env.computeInverseDelta w s d).1 = Except.ok (cinv s d))
    (hApp : ∀ w s d, (env.applyDeltaInPlace w s d).1 = Except.ok (app s d))
    (hV : ∀ w s, (env.validateState w s).1 = Except.ok (val s))
    (hG : ∀ w s t, (env.generateDomainViews w s t).1 = Except.ok (gen s t))
    (hP : env.performerStep = none)
    (hT : ∀ w, (env.timelineHashOk w).1 = Except.ok true)
    (w w1 : W) (now : ℚ) (htn : env.timeNow w = (now, w1))
    (rt : Runtime) (pending : List Delta) (dv : Option Views) (edt : Option ℚ)
    (invs : List Delta)
    (hinv : pureInverses cinv app rt.current_snapshot.zon4d_state
      (pySorted (validKept rt.max_deltas_per_tick pending)) = some invs)
    (hval : val (applyList app rt.current_snapshot.zon4d_state
      (pySorted (validKept rt.max_deltas_per_tick pending))) = true) :
    (∃ wf, run_tick env w rt pending dv edt =
      Except.ok (wf, happyRt app rt pending now,
        happyCtx app gen rt pending dv edt now invs)) ∧
    (happyCtx app gen rt pending dv edt now invs).breached = false ∧
    (happyCtx app gen rt pending dv edt now invs).deltas_rejected =
      rejectedOf rt.max_deltas_per_tick pending ∧
    (∀ d, d ∈ keptOf rt.max_deltas_per_tick pending →
      (d ∈ rejectedOf rt.max_deltas_per_tick pending ↔
        (d.id = "" ∨ d.source_id = "" ∨ d.entity_ref = "" ∨
         d.temporal_scope.1 > d.temporal_scope.2 ∨ 64 < d.parent_ids.length))) ∧
    (∀ d, d ∈ rejectedOf rt.max_deltas_per_tick pending →
      rejectAlert (rt.tick_counter + 1) now d ∈
        (happyCtx app gen rt pending dv edt now invs).alerts) ∧
    (happyCtx app gen rt pending dv edt now invs).deltas_ordered.Perm
      (((keptOf rt.max_deltas_per_tick pending).filter
        (fun d => _validate_delta_structure d)).map _normalized_delta) := by
  refine ⟨run_tick_pure_ok env cinv app val gen hI hApp hV hG hP hT w w1 now htn
      rt pending dv edt invs hinv hval, rfl, rfl, ?_, ?_, ?_⟩
  · intro d hd
    unfold rejectedOf
    rw [List.mem_filter]
    constructor
    · intro hx
      exact (_validate_delta_structure_iff d).mp (by simpa using hx.2)
    · intro hx
      exact ⟨hd, by simpa using (_validate_delta_structure_iff d).mpr hx⟩
  · intro d hd
    have hmem : rejectAlert (rt.tick_counter + 1) now d ∈
        (rejectedOf rt.max_deltas_per_tick pending).map
          (rejectAlert (rt.tick_counter + 1) now) :=
      List.mem_map.mpr ⟨d, hd, rfl⟩
    have hctx : (happyCtx app gen rt pending dv edt now invs).alerts =
        step2Alerts rt.max_deltas_per_tick (rt.tick_counter + 1) now pending
          ++ [info11Alert (rt.tick_counter + 1) now] := rfl
    rw [hctx]
    unfold step2Alerts
    refine List.mem_append.mpr (Or.inl (List.mem_append.mpr (Or.inr hmem)))
  · exact pySorted_perm _

theorem c9_structural_validation_witness :
    (∃ wf,
      run_tick (pureEnv (Except.ok true) (Except.ok anchor0) addInv addApp
          (fun _ => true)) () rtFresh
          [mkDelta "" "s" "value" 1 1, mkDelta "ok" "s" "value" 2 1] none none
        = Except.ok (wf,
            happyRt addApp rtFresh
              [mkDelta "" "s" "value" 1 1, mkDelta "ok" "s" "value" 2 1] 0,
            happyCtx addApp (fun _ _ => []) rtFresh
              [mkDelta "" "s" "value" 1 1, mkDelta "ok" "s" "value" 2 1] none none 0
              [⟨"inv_ok", "s", "value", 2, (0, 0), [], -1, []⟩])) ∧
    (mkDelta "" "s" "value" 1 1 ∈
        rejectedOf rtFresh.max_deltas_per_tick
          [mkDelta "" "s" "value" 1 1, mkDelta "ok" "s" "value" 2 1] ↔
      ((mkDelta "" "s" "value" 1 1).id = "" ∨
       (mkDelta "" "s" "value" 1 1).source_id = "" ∨
       (mkDelta "" "s" "value" 1 1).entity_ref = "" ∨
       (mkDelta "" "s" "value" 1 1).temporal_scope.1 >
         (mkDelta "" "s" "value" 1 1).temporal_scope.2 ∨
       64 < (mkDelta "" "s" "value" 1 1).parent_ids.length)) ∧
    rejectAlert 1 0 (mkDelta "" "s" "value" 1 1) ∈
      (happyCtx addApp (fun _ _ => []) rtFresh
        [mkDelta "" "s" "value" 1 1, mkDelta "ok" "s" "value" 2 1] none none 0
        [⟨"inv_ok", "s", "value", 2, (0, 0), [], -1, []⟩]).alerts := by
  have h := c9_structural_validation
    (pureEnv (Except.ok true) (Except.ok anchor0) addInv addApp (fun _ => true))
    addInv addApp (fun _ => true) (fun _ _ => [])
    (fun _ _ _ => rfl) (fun _ _ _ => rfl) (fun _ _ => rfl) (fun _ _ _ => rfl)
    rfl (fun _ => rfl) () () 0 rfl rtFresh
    [mkDelta "" "s" "value" 1 1, mkDelta "ok" "s" "value" 2 1] none none
    [⟨"inv_ok", "s", "value", 2, (0, 0), [], -1, []⟩]
    (by with_unfolding_all decide) rfl
  exact ⟨h.1,
    h.2.2.2.1 (mkDelta "" "s" "value" 1 1) (by with_unfolding_all decide),
    h.2.2.2.2.1 (mkDelta "" "s" "value" 1 1) (by with_unfolding_all decide)⟩

end Enginality
